import Mathlib

/-!
Verification development for the multi-provider image-generation MCP server
(`imagegen-mcp`).  JavaScript strings are shallowly embedded as `List Char`,
JavaScript objects used as ordered string maps as association lists
(insertion ordered, `mapSet` mirrors `Map.set` / property assignment), and
fallible code as `Option` / `Except`.  Filesystem existence checks are
modelled by an oracle `JStr → Bool`; an `Except.ok` result of a provider
operation carries the payload that would be sent over the network, so
`Except.error` means the operation threw before any backend call.
-/

set_option autoImplicit false

/-- A JavaScript string, embedded as a list of characters. -/
abbrev JStr := List Char

/-- Conversion from Lean string literals to the embedding. -/
def str (s : String) : JStr := s.toList

/-- Whether `a` is an initial segment of `b` (helper for substring search). -/
def strStarts : JStr → JStr → Bool
  | [], _ => true
  | _ :: _, [] => false
  | a :: as, b :: bs => a == b && strStarts as bs

/-- JavaScript `hay.includes(needle)` substring test. -/
def substrB (needle : JStr) : JStr → Bool
  | [] => needle.isEmpty
  | c :: rest => strStarts needle (c :: rest) || substrB needle rest

/-- Splits a string at the first occurrence of `sep`, returning the part
before and the part after the occurrence; `none` if `sep` never occurs.
(`sep` is assumed non-empty at every use site.) -/
def splitFirstOn (sep : JStr) : JStr → Option (JStr × JStr)
  | [] => if sep = [] then some ([], []) else none
  | c :: rest =>
    if strStarts sep (c :: rest) then some ([], (c :: rest).drop sep.length)
    else (splitFirstOn sep rest).map (fun p => (c :: p.1, p.2))

/-- The second element of JavaScript `s.split(sep)`: the segment between the
first and second occurrences of `sep` (or to the end of the string). -/
def jsSplitSecond (sep s : JStr) : JStr :=
  match splitFirstOn sep s with
  | none => s
  | some (_, rest) =>
    match splitFirstOn sep rest with
    | none => rest
    | some (a, _) => a

/-- JavaScript truthiness of an optional string (`undefined` and `""` are falsy). -/
def truthy : Option JStr → Bool
  | none => false
  | some s => !s.isEmpty

/-- JavaScript `x || d` for an optional string `x` (empty string falls back). -/
def jsOrS (x : Option JStr) (d : JStr) : JStr :=
  match x with
  | none => d
  | some s => if s = [] then d else s

/-- `Except` success test. -/
def exOk {ε α : Type} : Except ε α → Bool
  | .ok _ => true
  | .error _ => false

section AssocMap

variable {κ ν : Type} [DecidableEq κ]

/-- JavaScript `Map.set` / object property assignment on an insertion-ordered
association list: an existing key keeps its position, a new key is appended. -/
def mapSet (m : List (κ × ν)) (k : κ) (v : ν) : List (κ × ν) :=
  match m with
  | [] => [(k, v)]
  | (k', v') :: rest => if k' = k then (k, v) :: rest else (k', v') :: mapSet rest k v

/-- Property / `Map.get` lookup: value of the first entry with the given key. -/
def alGet (m : List (κ × ν)) (k : κ) : Option ν :=
  (m.find? (fun e => decide (e.1 = k))).map Prod.snd

/-- `Map.has` / `in` test. -/
def alHas (m : List (κ × ν)) (k : κ) : Bool :=
  (alGet m k).isSome

/-- `Object.keys`. -/
def alKeys (m : List (κ × ν)) : List κ := m.map Prod.fst

/-- `Object.values`. -/
def alVals (m : List (κ × ν)) : List ν := m.map Prod.snd

theorem mapSet_ne_nil (m : List (κ × ν)) (k : κ) (v : ν) : mapSet m k v ≠ [] := by
  cases m with
  | nil => simp [mapSet]
  | cons e rest =>
    simp only [mapSet]
    split <;> simp

theorem mapSet_fst_head (m : List (κ × ν)) (k : κ) (v : ν) (h : m ≠ []) :
    (mapSet m k v).head?.map Prod.fst = m.head?.map Prod.fst := by
  cases m with
  | nil => exact absurd rfl h
  | cons e rest =>
    cases e with
    | mk k' v' =>
      simp only [mapSet]
      by_cases hk : k' = k
      · subst hk; simp
      · simp [hk]

theorem alGet_nil (x : κ) : alGet ([] : List (κ × ν)) x = none := rfl

theorem alGet_cons (k' : κ) (v' : ν) (rest : List (κ × ν)) (x : κ) :
    alGet ((k', v') :: rest) x = if k' = x then some v' else alGet rest x := by
  unfold alGet
  by_cases h : k' = x
  · rw [List.find?_cons_of_pos _ (by simpa using h), if_pos h]
    rfl
  · rw [List.find?_cons_of_neg _ (by simpa using h), if_neg h]

theorem alKeys_mapSet (m : List (κ × ν)) (k : κ) (v : ν) :
    alKeys (mapSet m k v) = if k ∈ alKeys m then alKeys m else alKeys m ++ [k] := by
  induction m with
  | nil => simp [mapSet, alKeys]
  | cons e rest ih =>
    obtain ⟨k', v'⟩ := e
    by_cases hk : k' = k
    · subst hk
      simp [mapSet, alKeys]
    · simp only [mapSet, if_neg hk, alKeys, List.map_cons] at ih ⊢
      rw [ih]
      by_cases hm : k ∈ List.map Prod.fst rest
      · simp [hm]
      · have hkk : k ≠ k' := fun h => hk h.symm
        simp [hm, hkk]

theorem mem_alKeys_mapSet (m : List (κ × ν)) (k : κ) (v : ν) (x : κ) :
    x ∈ alKeys (mapSet m k v) ↔ x ∈ alKeys m ∨ x = k := by
  rw [alKeys_mapSet]
  by_cases hm : k ∈ alKeys m
  · simp only [if_pos hm]
    constructor
    · exact Or.inl
    · rintro (h | h)
      · exact h
      · exact h ▸ hm
  · simp [if_neg hm, List.mem_append]

theorem alGet_mapSet_self (m : List (κ × ν)) (k : κ) (v : ν) :
    alGet (mapSet m k v) k = some v := by
  induction m with
  | nil => simp [mapSet, alGet_cons, alGet_nil]
  | cons e rest ih =>
    obtain ⟨k', v'⟩ := e
    by_cases hk : k' = k
    · subst hk
      simp [mapSet, alGet_cons]
    · simp [mapSet, if_neg hk, alGet_cons, hk, ih]

theorem alGet_mapSet_ne (m : List (κ × ν)) (k : κ) (v : ν) (x : κ) (hx : x ≠ k) :
    alGet (mapSet m k v) x = alGet m x := by
  have hkx : ¬k = x := fun h => hx h.symm
  induction m with
  | nil => simp [mapSet, alGet_cons, alGet_nil, hkx]
  | cons e rest ih =>
    obtain ⟨k', v'⟩ := e
    by_cases hk : k' = k
    · subst hk
      simp [mapSet, alGet_cons, hkx]
    · simp [mapSet, if_neg hk, alGet_cons, ih]

end AssocMap

/-! ### Base64 (`Buffer.toString('base64')` / `Buffer.from(_, 'base64')`) -/

/-- The base64 alphabet. -/
def b64Alphabet : JStr :=
  str "ABCDEFGHIJKLMNOPQRSTUVWXYZabcdefghijklmnopqrstuvwxyz0123456789+/"

/-- The character encoding a 6-bit group. -/
def b64Chr (n : Nat) : Char := b64Alphabet.getD n 'A'

/-- The 6-bit value of an alphabet character (0 for foreign characters). -/
def b64Val (c : Char) : Nat := (b64Alphabet.indexOf c) % 64

/-- Standard base64 encoding of a byte sequence (the encoding produced by
Node's `Buffer.prototype.toString('base64')`). -/
def b64Encode : List Nat → JStr
  | [] => []
  | [a] => [b64Chr (a / 4), b64Chr (a % 4 * 16), '=', '=']
  | [a, b] => [b64Chr (a / 4), b64Chr (a % 4 * 16 + b / 16), b64Chr (b % 16 * 4), '=']
  | a :: b :: c :: rest =>
    b64Chr (a / 4) :: b64Chr (a % 4 * 16 + b / 16) ::
      b64Chr (b % 16 * 4 + c / 64) :: b64Chr (c % 64) :: b64Encode rest

/-- Base64 decoding (the behaviour of Node's `Buffer.from(data, 'base64')`
on well-formed base64 text). -/
def b64Decode : JStr → List Nat
  | c1 :: c2 :: c3 :: c4 :: rest =>
    let v1 := b64Val c1
    let v2 := b64Val c2
    let b1 := v1 * 4 + v2 / 16
    if c3 = '=' then [b1]
    else
      let v3 := b64Val c3
      let b2 := v2 % 16 * 16 + v3 / 4
      if c4 = '=' then [b1, b2]
      else b1 :: b2 :: (v3 % 4 * 64 + b64Val c4) :: b64Decode rest
  | _ => []

theorem b64Val_b64Chr (n : Nat) (h : n < 64) : b64Val (b64Chr n) = n := by
  interval_cases n <;> rfl

theorem b64Chr_mem_or_default (n : Nat) :
    b64Chr n ∈ b64Alphabet ∨ b64Chr n = 'A' := by
  unfold b64Chr
  rcases Nat.lt_or_ge n b64Alphabet.length with h | h
  · left
    rw [List.getD_eq_getElem _ _ h]
    exact List.getElem_mem h
  · right
    exact List.getD_eq_default _ _ h

theorem b64Chr_ne_eq (n : Nat) : b64Chr n ≠ '=' := by
  rcases b64Chr_mem_or_default n with h | h
  · intro he
    rw [he] at h
    revert h
    decide
  · rw [h]
    decide

theorem b64Chr_ne_comma (n : Nat) : b64Chr n ≠ ',' := by
  rcases b64Chr_mem_or_default n with h | h
  · intro he
    rw [he] at h
    revert h
    decide
  · rw [h]
    decide

theorem b64Encode_no_comma (bs : List Nat) : ',' ∉ b64Encode bs := by
  induction bs using b64Encode.induct with
  | case1 => simp [b64Encode]
  | case2 a =>
    simp only [b64Encode, List.mem_cons, List.not_mem_nil, or_false]
    push_neg
    exact ⟨fun h => b64Chr_ne_comma _ h.symm, fun h => b64Chr_ne_comma _ h.symm,
      by decide, by decide⟩
  | case3 a b =>
    simp only [b64Encode, List.mem_cons, List.not_mem_nil, or_false]
    push_neg
    exact ⟨fun h => b64Chr_ne_comma _ h.symm, fun h => b64Chr_ne_comma _ h.symm,
      fun h => b64Chr_ne_comma _ h.symm, by decide⟩
  | case4 a b c rest ih =>
    simp only [b64Encode, List.mem_cons]
    push_neg
    exact ⟨fun h => b64Chr_ne_comma _ h.symm, fun h => b64Chr_ne_comma _ h.symm,
      fun h => b64Chr_ne_comma _ h.symm, fun h => b64Chr_ne_comma _ h.symm, ih⟩

theorem b64_roundtrip (bs : List Nat) (h : ∀ x ∈ bs, x < 256) :
    b64Decode (b64Encode bs) = bs := by
  induction bs using b64Encode.induct with
  | case1 => rfl
  | case2 a =>
    have ha : a < 256 := h a (by simp)
    have e1 := b64Val_b64Chr (a / 4) (by omega)
    have e2 := b64Val_b64Chr (a % 4 * 16) (by omega)
    simp only [b64Encode, b64Decode, e1, e2, if_true]
    simp only [List.cons.injEq, and_true]
    omega
  | case3 a b =>
    have ha : a < 256 := h a (by simp)
    have hb : b < 256 := h b (by simp)
    have e1 := b64Val_b64Chr (a / 4) (by omega)
    have e2 := b64Val_b64Chr (a % 4 * 16 + b / 16) (by omega)
    have e3 := b64Val_b64Chr (b % 16 * 4) (by omega)
    simp only [b64Encode, b64Decode]
    rw [if_neg (b64Chr_ne_eq (b % 16 * 4))]
    simp only [e1, e2, e3, if_true]
    simp only [List.cons.injEq, and_true]
    constructor <;> omega
  | case4 a b c rest ih =>
    have ha : a < 256 := h a (by simp)
    have hb : b < 256 := h b (by simp)
    have hc : c < 256 := h c (by simp)
    have hrest : ∀ x ∈ rest, x < 256 := fun x hx => h x (by simp [hx])
    have e1 := b64Val_b64Chr (a / 4) (by omega)
    have e2 := b64Val_b64Chr (a % 4 * 16 + b / 16) (by omega)
    have e3 := b64Val_b64Chr (b % 16 * 4 + c / 64) (by omega)
    have e4 := b64Val_b64Chr (c % 64) (by omega)
    simp only [b64Encode, b64Decode]
    rw [if_neg (b64Chr_ne_eq (b % 16 * 4 + c / 64)), if_neg (b64Chr_ne_eq (c % 64))]
    simp only [e1, e2, e3, e4, ih hrest]
    simp only [List.cons.injEq, and_true]
    refine ⟨by omega, by omega, by omega⟩

/-! ### Provider identities and model catalogs (`src/libs/providers/*`) -/

/-- The `ProviderType` enum from `base.ts`. -/
inductive ProviderType where
  | openai
  | stability
  | replicate
  | huggingface
deriving DecidableEq, Repr

/-- The string value of each `ProviderType` enum member. -/
def ptName : ProviderType → JStr
  | .openai => str "openai"
  | .stability => str "stability"
  | .replicate => str "replicate"
  | .huggingface => str "huggingface"

/-- A model catalog: insertion-ordered mapping from logical model key to
backend model identifier. -/
abbrev Catalog := List (JStr × JStr)

/-- Catalog entry from two string literals. -/
def kv (k v : String) : JStr × JStr := (str k, str v)

/-- `OPENAI_MODELS` from `openaiProvider.ts`. -/
def OPENAI_MODELS : Catalog :=
  [kv "GPT_IMAGE" "gpt-image-1", kv "DALLE2" "dall-e-2", kv "DALLE3" "dall-e-3"]

/-- `STABILITY_MODELS` from `stabilityProvider.ts`. -/
def STABILITY_MODELS : Catalog :=
  [kv "STABLE_DIFFUSION_XL" "stable-diffusion-xl-1024-v1-0",
   kv "STABLE_DIFFUSION_V2_1" "stable-diffusion-v2-1",
   kv "STABLE_DIFFUSION_V1_6" "stable-diffusion-v1-6",
   kv "STABLE_DIFFUSION_512_V2_1" "stable-diffusion-512-v2-1"]

/-- `REPLICATE_MODELS` from `replicateProvider.ts`. -/
def REPLICATE_MODELS : Catalog :=
  [kv "STABLE_DIFFUSION_XL"
      "stability-ai/sdxl:7762fd07cf82c948538e41f63f77d685e02b063e37e496e96eefd46c929f9bdc",
   kv "STABLE_DIFFUSION"
      "stability-ai/stable-diffusion:27b93a2413e7f36cd83da926f3656280b2931564ff050bf9575f1fdf9bcd7478",
   kv "FLUX_SCHNELL"
      "black-forest-labs/flux-schnell:bf2f2b6c6d3c4f7b7c5e8c6f4d2f1e6b8a9c0e8f",
   kv "PLAYGROUND_V2_5"
      "playgroundai/playground-v2.5-1024px-aesthetic:a45f82a1382bed5c7aeb861dac7c7d191b0fdf74d8d57c4a0e6ed7d4d0bf7d24",
   kv "KANDINSKY_2_2"
      "ai-forever/kandinsky-2.2:ad9d7879fbffa2874e1d909d1d37d9bc682889cc65b31f7bb00d2362619f194a"]

/-- `HUGGINGFACE_MODELS` from `huggingfaceProvider.ts`. -/
def HUGGINGFACE_MODELS : Catalog :=
  [kv "STABLE_DIFFUSION_XL" "stabilityai/stable-diffusion-xl-base-1.0",
   kv "STABLE_DIFFUSION_2_1" "stabilityai/stable-diffusion-2-1",
   kv "DALLE_MINI" "dalle-mini/dalle-mini",
   kv "FLUX_SCHNELL" "black-forest-labs/FLUX.1-schnell",
   kv "STABLE_DIFFUSION_3" "stabilityai/stable-diffusion-3-medium-diffusers",
   kv "PLAYGROUND_V2_5" "playgroundai/playground-v2.5-1024px-aesthetic"]

/-- JavaScript `String.prototype.toLowerCase` (ASCII is all that occurs here). -/
def toLowerStr (s : JStr) : JStr := s.map Char.toLower

/-- OpenAI / Stability allow-list filtering: keep the catalog entries whose
backend value equals an allow-list entry; unknown entries are warned about
and dropped; an allow-list with zero matches falls back to the full catalog
(constructor bodies in `openaiProvider.ts` and `stabilityProvider.ts`). -/
def filterCatalogExact (defaultCat : Catalog) (allow : List JStr) : Catalog :=
  let c := allow.foldl (fun acc m =>
    match defaultCat.find? (fun e => decide (e.2 = m)) with
    | some e => mapSet acc e.1 e.2
    | none => acc) []
  if c = [] then defaultCat else c

/-- Replicate allow-list filtering (`replicateProvider.ts` constructor):
an entry matches a catalog key when the lower-cased key contains the
lower-cased entry as a substring, or equals it; unmatched entries are
added verbatim as key-and-value; zero total matches fall back to a
one-entry SDXL catalog. -/
def filterCatalogReplicate (allow : List JStr) : Catalog :=
  let c := allow.foldl (fun acc m =>
    match REPLICATE_MODELS.find? (fun e =>
        substrB (toLowerStr m) (toLowerStr e.1) || decide (m = e.1)) with
    | some e => mapSet acc e.1 e.2
    | none => mapSet acc m m) []
  if c = [] then
    [kv "STABLE_DIFFUSION_XL"
        "stability-ai/sdxl:7762fd07cf82c948538e41f63f77d685e02b063e37e496e96eefd46c929f9bdc"]
  else c

/-- HuggingFace allow-list filtering (`huggingfaceProvider.ts` constructor):
an entry matches a catalog entry when the backend value equals it or
contains it as a substring; unmatched entries are added verbatim;
zero total matches fall back to a one-entry SDXL catalog. -/
def filterCatalogHuggingface (allow : List JStr) : Catalog :=
  let c := allow.foldl (fun acc m =>
    match HUGGINGFACE_MODELS.find? (fun e =>
        decide (e.2 = m) || substrB m e.2) with
    | some e => mapSet acc e.1 e.2
    | none => mapSet acc m m) []
  if c = [] then
    [kv "STABLE_DIFFUSION_XL" "stabilityai/stable-diffusion-xl-base-1.0"]
  else c

/-- The exposed catalog (`this.allowedModels`) a provider client is
constructed with, given its optional allow-list. -/
def buildProviderCatalog (pt : ProviderType) (allow : Option (List JStr)) : Catalog :=
  match allow with
  | none =>
    match pt with
    | .openai => OPENAI_MODELS
    | .stability => STABILITY_MODELS
    | .replicate => REPLICATE_MODELS
    | .huggingface => HUGGINGFACE_MODELS
  | some l =>
    if l = [] then
      match pt with
      | .openai => OPENAI_MODELS
      | .stability => STABILITY_MODELS
      | .replicate => REPLICATE_MODELS
      | .huggingface => HUGGINGFACE_MODELS
    else
      match pt with
      | .openai => filterCatalogExact OPENAI_MODELS l
      | .stability => filterCatalogExact STABILITY_MODELS l
      | .replicate => filterCatalogReplicate l
      | .huggingface => filterCatalogHuggingface l

/-- `getDefaultModel()`: the first backend value of the exposed catalog
(`Object.values(this.allowedModels)[0]`; the empty string stands for the
`undefined` produced by an empty catalog). -/
def defaultModelOf (cat : Catalog) : JStr := (alVals cat).headD []

/-! ### Provider factory / registry (`src/libs/providerFactory.ts`) -/

/-- `MultiProviderConfig`: the resolved configuration handed to the factory. -/
structure MultiProviderConfig where
  providers : List ProviderType
  defaultProvider : Option ProviderType
  allowedModelsFor : ProviderType → Option (List JStr)

/-- The environment: each provider's credential value (`[]` models an unset
or empty environment variable, which JavaScript treats as falsy). -/
abbrev Env := ProviderType → JStr

/-- `createProvider`: throws (`none`) when the provider's credential is
missing or empty, otherwise constructs the client, whose observable state
is its exposed catalog. -/
def createProvider (cfg : MultiProviderConfig) (env : Env) (pt : ProviderType) :
    Option Catalog :=
  if env pt = [] then none
  else some (buildProviderCatalog pt (cfg.allowedModelsFor pt))

/-- The `providers` map after the construction loop of
`initializeProviders`: failed constructions are skipped, successes are
`Map.set` into the insertion-ordered map. -/
def buildProviderMap (cfg : MultiProviderConfig) (env : Env) :
    List (ProviderType × Catalog) :=
  cfg.providers.foldl (fun m pt =>
    match createProvider cfg env pt with
    | some cat => mapSet m pt cat
    | none => m) []

/-- The registry state after a successful factory construction. -/
structure Registry where
  providers : List (ProviderType × Catalog)
  defaultProvider : ProviderType

/-- Factory construction (`constructor` + `initializeProviders`): build the
provider map, fail (`none`) when it is empty, then finalize the default
provider, switching to the first live provider when the requested default
(`config.defaultProvider || config.providers[0]`) did not initialize. -/
def initializeProviders (cfg : MultiProviderConfig) (env : Env) : Option Registry :=
  let m := buildProviderMap cfg env
  match m with
  | [] => none
  | (k0, _) :: _ =>
    match cfg.defaultProvider.orElse (fun _ => cfg.providers.head?) with
    | none => none
    | some d => some ⟨m, if alHas m d then d else k0⟩

/-- `getProvider`: lookup of a provider client, `none` models the
"provider is not available" error. -/
def getProvider (reg : Registry) (pt : Option ProviderType) : Option Catalog :=
  alGet reg.providers (pt.getD reg.defaultProvider)

/-- `getDefaultProvider`. -/
def getDefaultProvider (reg : Registry) : Option Catalog :=
  alGet reg.providers reg.defaultProvider

/-- The provider-qualified model name `providerType/key` used by
`getAllProviderModels`. -/
def qualName (pt : ProviderType) (k : JStr) : JStr := ptName pt ++ '/' :: k

/-- The flattened model enumeration the server derives from
`getAllProviderModels()`: every catalog key of every live provider,
qualified with its provider identity, in registry order. -/
def flatModels (reg : Registry) : List (JStr × JStr) :=
  reg.providers.flatMap (fun e => e.2.map (fun m => (qualName e.1 m.1, m.2)))

/-- JavaScript `modelId.split('/', 2)[0]`. -/
def firstSeg (s : JStr) : JStr := s.takeWhile (fun c => decide (c ≠ '/'))

/-- JavaScript `modelId.split('/', 2)[1]`: the segment between the first
and second `'/'`. -/
def secondSeg (s : JStr) : JStr :=
  (((s.dropWhile (fun c => decide (c ≠ '/'))).drop 1).takeWhile (fun c => decide (c ≠ '/')))

/-- The provider-prefix branch of `getProviderFromModel`
(`if (modelId.includes('/')) { ... }`): split off the provider name, look
the provider up, and accept the second segment when it is a catalog key or
value of that provider. -/
def resolveQualified (reg : Registry) (modelId : JStr) : Option (ProviderType × JStr) :=
  if '/' ∈ modelId then
    match reg.providers.find? (fun e => decide (ptName e.1 = firstSeg modelId)) with
    | some e =>
      if truthy (alGet e.2 (secondSeg modelId)) || decide (secondSeg modelId ∈ alVals e.2) then
        some (e.1, jsOrS (alGet e.2 (secondSeg modelId)) (secondSeg modelId))
      else none
    | none => none
  else none

/-- `getProviderFromModel`: resolves a caller-supplied model string to a
(provider identity, backend model id) pair — prefix branch, then a scan of
all providers for a bare key or value match, then the permissive fallback
to the default provider with the raw string; `none` models the exception
thrown by `getDefaultProvider` when the default provider is dead. -/
def getProviderFromModel (reg : Registry) (modelId : JStr) :
    Option (ProviderType × JStr) :=
  match resolveQualified reg modelId with
  | some r => some r
  | none =>
    match reg.providers.find? (fun e =>
        decide (modelId ∈ alVals e.2) || decide (modelId ∈ alKeys e.2)) with
    | some e => some (e.1, jsOrS (alGet e.2 modelId) modelId)
    | none => (getDefaultProvider reg).map (fun _ => (reg.defaultProvider, modelId))

/-- The server's `defaultModel`:
`Object.keys(flatModels)[0] || defaultProvider.getDefaultModel()`. -/
def computeDefaultModel (reg : Registry) : JStr :=
  jsOrS ((flatModels reg).head?.map Prod.fst)
    (defaultModelOf ((getDefaultProvider reg).getD []))

/-- The provider/model selection shared by the two tool handlers
(`text-to-image` and `image-to-image` in `index.ts`): an explicit provider
wins and receives `model || defaultModel` verbatim; otherwise a truthy
model string goes through registry resolution; otherwise the default
provider and `defaultModel` are used.  `none` models a thrown error. -/
def selectTarget (reg : Registry) (dm : JStr) (provider : Option ProviderType)
    (model : Option JStr) : Option (ProviderType × JStr) :=
  match getDefaultProvider reg with
  | none => none
  | some _ =>
    let targetModel := jsOrS model dm
    match provider with
    | some p => if alHas reg.providers p then some (p, targetModel) else none
    | none =>
      if truthy model then getProviderFromModel reg (model.getD [])
      else some (reg.defaultProvider, targetModel)

/-- Well-formedness of a registry: provider keys are distinct, the default
provider is live, and every catalog has distinct keys and non-empty
(truthy) backend values. -/
def RegistryWF (reg : Registry) : Prop :=
  (alKeys reg.providers).Nodup ∧
  alHas reg.providers reg.defaultProvider = true ∧
  ∀ e ∈ reg.providers, (alKeys e.2).Nodup ∧ ∀ m ∈ e.2, m.2 ≠ []

/-! ### Generation requests (`openaiProvider.ts` / `openaiImageApi`) -/

/-- A normalized generation request (`ImageGenerationParams`); `none` models
an absent property, `some []` an explicitly empty (falsy) string. -/
structure GenRequest where
  prompt : JStr
  model : Option JStr := none
  n : Option Nat := none
  size : Option JStr := none
  style : Option JStr := none
  quality : Option JStr := none
  response_format : Option JStr := none
  output_format : Option JStr := none
  output_compression : Option Nat := none
  background : Option JStr := none
  moderation : Option JStr := none
  user : Option JStr := none

/-- The JSON body `generateImages` would post to the backend. -/
structure GenPayload where
  prompt : JStr
  model : JStr
  n : Nat
  size : JStr
  style : Option JStr
  response_format : Option JStr
  quality : JStr
  background : JStr
  output_format : JStr
  output_compression : Nat
  moderation : JStr
deriving DecidableEq, Repr

/-- Effective model of a generation request after the defaults merge. -/
def effGenModel (cat : Catalog) (req : GenRequest) : JStr :=
  req.model.getD (defaultModelOf cat)

/-- Effective image count after the defaults merge. -/
def effGenN (req : GenRequest) : Nat := req.n.getD 1

/-- Effective size after the defaults merge. -/
def effGenSize (req : GenRequest) : JStr := req.size.getD (str "1024x1024")

/-- Effective output format after the defaults merge. -/
def effGenFormat (req : GenRequest) : JStr := req.output_format.getD (str "png")

/-- Effective background after the defaults merge. -/
def effGenBackground (req : GenRequest) : JStr := req.background.getD (str "auto")

/-- `OpenAIImageProvider.generateImages` up to the network boundary
(`openaiProvider.ts`; `OpenAIImageClient.generateImages` performs the same
checks): validation happens in source order and `Except.error` carries the
thrown message, while `Except.ok` carries the JSON payload of the `fetch`
call that only happens after every check passed. -/
def openaiGenerate (cat : Catalog) (req : GenRequest) : Except JStr GenPayload :=
  if req.prompt = [] then .error (str "Prompt is required")
  else
    let model := effGenModel cat req
    let n := effGenN req
    let size := effGenSize req
    let style := req.style.getD (str "vivid")
    let background := effGenBackground req
    let quality := req.quality.getD (str "auto")
    let output_format := effGenFormat req
    let output_compression := req.output_compression.getD 100
    let moderation := req.moderation.getD (str "low")
    let response_format := req.response_format.getD (str "b64_json")
    if model ≠ [] ∧ model ∉ alVals cat then
      .error (str "Model \"" ++ model ++ str "\" is not allowed. Allowed models: " ++
        List.intercalate (str ", ") (alVals cat))
    else if model = str "dall-e-3" ∧ n ≠ 0 ∧ 1 < n then
      .error (str "dall-e-3 model only supports n=1")
    else
      let style' := if model ≠ str "dall-e-3" then none else some style
      if model = str "dall-e-2" ∧ size ≠ [] ∧
          size ∉ [str "256x256", str "512x512", str "1024x1024"] then
        .error (str "dall-e-2 only supports sizes 256x256, 512x512, or 1024x1024")
      else if model = str "dall-e-3" ∧ size ≠ [] ∧
          size ∉ [str "1024x1024", str "1792x1024", str "1024x1792"] then
        .error (str "dall-e-3 only supports sizes 1024x1024, 1792x1024, or 1024x1792")
      else if background = str "transparent" ∧ output_format ≠ [] ∧
          output_format ∉ [str "png", str "webp"] then
        .error (str "When background is transparent, output_format must be png or webp")
      else
        let response_format' :=
          if model ≠ str "dall-e-2" ∧ model ≠ str "dall-e-3" then none
          else some response_format
        .ok ⟨req.prompt, model, n, size, style', response_format', quality,
          background, output_format, output_compression, moderation⟩

/-! ### Edit requests (`openaiProvider.ts`, `replicateProvider.ts`) -/

/-- A normalized edit request (`ImageEditParams`). -/
structure EditRequest where
  images : List JStr
  prompt : JStr
  mask : Option JStr := none
  model : Option JStr := none
  n : Option Nat := none
  size : Option JStr := none
  quality : Option JStr := none
  response_format : Option JStr := none
  output_format : Option JStr := none
  output_compression : Option Nat := none
  user : Option JStr := none

/-- The multipart form `OpenAIImageProvider.editImages` would post. -/
structure EditPayload where
  images : List JStr
  mask : Option JStr
  prompt : JStr
  model : JStr
  n : Nat
  size : JStr
  response_format : Option JStr
  quality : JStr
deriving DecidableEq, Repr

/-- Effective model of an OpenAI edit request (`model: OPENAI_MODELS.GPT_IMAGE`
is the default applied by the spread). -/
def effEditModel (req : EditRequest) : JStr := req.model.getD (str "gpt-image-1")

/-- The first request image whose path does not exist, in order. -/
def firstMissing (fs : JStr → Bool) (paths : List JStr) : Option JStr :=
  paths.find? (fun p => !fs p)

/-- Checks the request's image files in order, like the `forEach` loop in
`editImages`: errors on the first missing file. -/
def checkImagesExist (fs : JStr → Bool) (paths : List JStr) : Except JStr Unit :=
  match firstMissing fs paths with
  | some p => .error (str "Image file not found: " ++ p)
  | none => .ok ()

/-- `OpenAIImageProvider.editImages` up to the network boundary: as with
generation, validation runs in source order, the file-existence checks use
the filesystem oracle `fs`, and `Except.ok` carries the form payload of
the `fetch` call. -/
def openaiEdit (cat : Catalog) (fs : JStr → Bool) (req : EditRequest) :
    Except JStr EditPayload :=
  if req.images = [] then .error (str "At least one image file path is required")
  else if req.prompt = [] then .error (str "Prompt is required")
  else
    let model := effEditModel req
    let n := req.n.getD 1
    let size := req.size.getD (str "1024x1024")
    let quality := req.quality.getD (str "auto")
    let response_format := req.response_format.getD (str "b64_json")
    if model ≠ [] ∧ model ∉ alVals cat then
      .error (str "Model \"" ++ model ++ str "\" is not allowed. Allowed models: " ++
        List.intercalate (str ", ") (alVals cat))
    else if model ≠ [] ∧ model ≠ str "dall-e-2" ∧ model ≠ str "gpt-image-1" then
      .error (str "Only dall-e-2 and gpt-image-1 are supported for image editing")
    else if model = str "dall-e-2" ∧ req.images.length ≠ 1 then
      .error (str "dall-e-2 only supports a single image for editing")
    else if model = str "dall-e-2" ∧ size ≠ [] ∧
        size ∉ [str "256x256", str "512x512", str "1024x1024"] then
      .error (str "dall-e-2 only supports sizes 256x256, 512x512, or 1024x1024")
    else
      match checkImagesExist fs req.images with
      | .error e => .error e
      | .ok _ =>
        if truthy req.mask ∧ !fs (req.mask.getD []) then
          .error (str "Mask file not found: " ++ req.mask.getD [])
        else
          let response_format' :=
            if response_format ≠ [] ∧ model ≠ str "gpt-image-1" then
              some response_format
            else none
          .ok ⟨req.images, req.mask, req.prompt, model, n, size,
            response_format', quality⟩

/-- The input `ReplicateImageProvider.editImages` would hand to
`replicate.run`: the backend model version, the (single) image actually
read, and the optional mask. -/
structure RepEditPayload where
  modelVersion : JStr
  image : JStr
  mask : Option JStr
  prompt : JStr
  numOutputs : Nat
deriving DecidableEq, Repr

/-- Effective model of a Replicate edit request
(`params.model || Object.keys(this.allowedModels)[0]`). -/
def effRepModel (cat : Catalog) (req : EditRequest) : JStr :=
  jsOrS req.model ((alKeys cat).headD [])

/-- The backend model version a Replicate request resolves to
(`this.allowedModels[model] || model`). -/
def repModelVersion (cat : Catalog) (req : EditRequest) : JStr :=
  jsOrS (alGet cat (effRepModel cat req)) (effRepModel cat req)

/-- `ReplicateImageProvider.editImages` up to the network boundary.  Only
`images[0]` and the mask are existence-checked (they are the only files
read); those checks sit inside the `try` block whose `catch` re-throws
with a `Replicate API error: ` message. -/
def replicateEdit (cat : Catalog) (fs : JStr → Bool) (req : EditRequest) :
    Except JStr RepEditPayload :=
  if req.images = [] then .error (str "At least one image file path is required")
  else if req.prompt = [] then .error (str "Prompt is required")
  else
    let modelVersion := repModelVersion cat req
    if modelVersion = [] then
      .error (str "Model \"" ++ effRepModel cat req ++
        str "\" is not allowed. Allowed models: " ++
        List.intercalate (str ", ") (alKeys cat))
    else
      let inner : Except JStr RepEditPayload :=
        let imagePath := req.images.headD []
        if !fs imagePath then .error (str "Image file not found: " ++ imagePath)
        else if truthy req.mask ∧ !fs (req.mask.getD []) then
          .error (str "Mask file not found: " ++ req.mask.getD [])
        else
          .ok ⟨modelVersion, imagePath, req.mask, req.prompt, req.n.getD 1⟩
      match inner with
      | .error e => .error (str "Replicate API error: " ++ e)
      | .ok p => .ok p

/-! ### Result persistence (`saveImageToTempFile`, identical in all clients) -/

/-- The basename of a path: everything after the last `'/'`. -/
def baseOf (p : JStr) : JStr :=
  (p.reverse.takeWhile (fun c => decide (c ≠ '/'))).reverse

/-- Node `path.parse(p).dir` (for the paths at hand): everything before the
last `'/'`, with a bare root kept as `"/"`. -/
def dirOf (p : JStr) : JStr :=
  let d := p.take (p.length - (baseOf p).length - 1)
  if d = [] ∧ p.head? = some '/' then str "/" else d

/-- Node `path.parse(p).ext`: the suffix of the basename from its last dot,
empty when there is no dot, when the dot is the leading character, or for
the special basename `".."`. -/
def extOf (p : JStr) : JStr :=
  let base := baseOf p
  if !base.contains '.' then []
  else if base = str ".." then []
  else
    let afterDot := (base.reverse.takeWhile (fun c => decide (c ≠ '.'))).reverse
    if base.length = afterDot.length + 1 then [] else '.' :: afterDot

/-- Node `path.join` for the two-argument uses at hand. -/
def joinPath (a b : JStr) : JStr :=
  if a.getLast? = some '/' then a ++ b else a ++ '/' :: b

/-- The `base64,`-splitting of `saveImageToTempFile` / `base64ToBuffer`:
`data.includes('base64,') ? data.split('base64,')[1] : data`. -/
def stripDataUrl (data : JStr) : JStr :=
  if (splitFirstOn (str "base64,") data).isSome then jsSplitSecond (str "base64,") data
  else data

/-- Observable outcome of `saveImageToTempFile`: the file path written, the
bytes written, and the directories created (in order). -/
structure SaveOutcome where
  filePath : JStr
  bytes : List Nat
  dirsCreated : List JStr
deriving DecidableEq, Repr

/-- `saveImageToTempFile(imageData, outputFormat, outputPath?)`: strips any
data-URL prefix, decodes base64, and resolves the target purely from the
syntactic presence of a file extension; `uuid` stands for the freshly
generated `uuidv4()` and `fs` for `fs.existsSync`. -/
def saveImageToTempFile (imageData outputFormat : JStr) (outputPath : Option JStr)
    (uuid : JStr) (fs : JStr → Bool) : SaveOutcome :=
  let buffer := b64Decode (stripDataUrl imageData)
  let op := outputPath.getD []
  if op ≠ [] then
    if extOf op ≠ [] then
      ⟨op, buffer, if fs (dirOf op) then [] else [dirOf op]⟩
    else
      ⟨joinPath op (uuid ++ '.' :: outputFormat), buffer,
        if fs op then [] else [op]⟩
  else
    ⟨joinPath (str "/tmp") (uuid ++ '.' :: outputFormat), buffer, []⟩

/-! ### Infrastructure lemmas -/

theorem strStarts_subset (a b : JStr) (h : strStarts a b = true) : ∀ x ∈ a, x ∈ b := by
  induction a generalizing b with
  | nil => simp
  | cons c cs ih =>
    cases b with
    | nil => simp [strStarts] at h
    | cons d ds =>
      simp only [strStarts, Bool.and_eq_true, beq_iff_eq] at h
      intro x hx
      rcases List.mem_cons.mp hx with hx | hx
      · exact List.mem_cons.mpr (Or.inl (hx.trans h.1))
      · exact List.mem_cons.mpr (Or.inr (ih ds h.2 x hx))

theorem splitFirstOn_eq_none_of_no_comma (s : JStr) (h : ',' ∉ s) :
    splitFirstOn (str "base64,") s = none := by
  induction s with
  | nil => rfl
  | cons c rest ih =>
    have hs : ¬strStarts (str "base64,") (c :: rest) = true := by
      intro hst
      exact h (strStarts_subset _ _ hst ',' (by decide))
    simp only [splitFirstOn, Bool.not_eq_true] at hs ⊢
    rw [hs]
    simp only [Bool.false_eq_true, if_false]
    rw [ih (fun hr => h (List.mem_cons.mpr (Or.inr hr)))]
    rfl

theorem stripDataUrl_of_no_comma (payload : JStr) (h : ',' ∉ payload) :
    stripDataUrl payload = payload := by
  unfold stripDataUrl
  rw [splitFirstOn_eq_none_of_no_comma payload h]
  rfl

theorem splitFirstOn_dataUrl (payload : JStr) :
    splitFirstOn (str "base64,") (str "data:image/png;base64," ++ payload) =
      some (str "data:image/png;", payload) := rfl

theorem stripDataUrl_dataUrl (payload : JStr) (h : ',' ∉ payload) :
    stripDataUrl (str "data:image/png;base64," ++ payload) = payload := by
  unfold stripDataUrl jsSplitSecond
  rw [splitFirstOn_dataUrl payload]
  simp only [Option.isSome_some, if_true]
  rw [splitFirstOn_eq_none_of_no_comma payload h]

theorem alHas_iff_mem_keys {κ ν : Type} [DecidableEq κ] (m : List (κ × ν)) (k : κ) :
    alHas m k = true ↔ k ∈ alKeys m := by
  induction m with
  | nil => simp [alHas, alGet_nil, alKeys]
  | cons e rest ih =>
    obtain ⟨k', v'⟩ := e
    rw [alHas] at ih ⊢
    rw [alGet_cons]
    by_cases h : k' = k
    · subst h
      simp [alKeys]
    · simp only [if_neg h, alKeys, List.map_cons, List.mem_cons]
      rw [ih]
      constructor
      · exact fun hm => Or.inr hm
      · rintro (hm | hm)
        · exact absurd hm.symm h
        · exact hm

theorem alGet_eq_none_of_not_mem {κ ν : Type} [DecidableEq κ] (m : List (κ × ν))
    (k : κ) (h : k ∉ alKeys m) : alGet m k = none := by
  have := (alHas_iff_mem_keys m k).not.mpr h
  rw [alHas] at this
  cases he : alGet m k with
  | none => rfl
  | some v => rw [he] at this; simp at this

theorem find?_key_of_nodup {κ ν : Type} [DecidableEq κ] (l : List (κ × ν))
    (k : κ) (v : ν) (hnd : (l.map Prod.fst).Nodup) (hmem : (k, v) ∈ l) :
    l.find? (fun e => decide (e.1 = k)) = some (k, v) := by
  induction l with
  | nil => cases hmem
  | cons e rest ih =>
    rcases List.mem_cons.mp hmem with he | he
    · subst he
      exact List.find?_cons_of_pos _ (by simp)
    · have hnd' : (e.1 :: rest.map Prod.fst).Nodup := by simpa using hnd
      have hne : e.1 ≠ k := by
        intro h
        have hmk : k ∈ rest.map Prod.fst := List.mem_map.mpr ⟨(k, v), he, rfl⟩
        exact (List.nodup_cons.mp hnd').1 (h ▸ hmk)
      rw [List.find?_cons_of_neg _ (by simpa using hne)]
      exact ih (List.nodup_cons.mp hnd').2 he

theorem alGet_of_nodup_mem {κ ν : Type} [DecidableEq κ] (l : List (κ × ν))
    (k : κ) (v : ν) (hnd : (l.map Prod.fst).Nodup) (hmem : (k, v) ∈ l) :
    alGet l k = some v := by
  rw [alGet, find?_key_of_nodup l k v hnd hmem]
  rfl

theorem ptName_no_slash (pt : ProviderType) : '/' ∉ ptName pt := by
  cases pt <;> decide

theorem ptName_inj (p q : ProviderType) (h : ptName p = ptName q) : p = q := by
  cases p <;> cases q <;> revert h <;> decide

theorem ptName_ne_nil (pt : ProviderType) : ptName pt ≠ [] := by
  cases pt <;> decide

theorem find?_ptName_of_nodup (l : List (ProviderType × Catalog)) (pt : ProviderType)
    (cat : Catalog) (hnd : (l.map Prod.fst).Nodup) (hmem : (pt, cat) ∈ l) :
    l.find? (fun e => decide (ptName e.1 = ptName pt)) = some (pt, cat) := by
  induction l with
  | nil => cases hmem
  | cons e rest ih =>
    rcases List.mem_cons.mp hmem with he | he
    · subst he
      exact List.find?_cons_of_pos _ (by simp)
    · have hnd' : (e.1 :: rest.map Prod.fst).Nodup := by simpa using hnd
      have hne : ptName e.1 ≠ ptName pt := by
        intro h
        have he1 : e.1 = pt := ptName_inj _ _ h
        have hmk : pt ∈ rest.map Prod.fst := List.mem_map.mpr ⟨(pt, cat), he, rfl⟩
        exact (List.nodup_cons.mp hnd').1 (he1 ▸ hmk)
      rw [List.find?_cons_of_neg _ (by simpa using hne)]
      exact ih (List.nodup_cons.mp hnd').2 he

theorem takeWhile_no_slash_append (a b : JStr) (ha : '/' ∉ a) :
    (a ++ '/' :: b).takeWhile (fun c => decide (c ≠ '/')) = a := by
  induction a with
  | nil => simp [List.takeWhile]
  | cons c cs ih =>
    have hc : c ≠ '/' := fun h => ha (h ▸ List.mem_cons_self c cs)
    simp only [List.cons_append, List.takeWhile_cons, decide_eq_true_eq]
    rw [if_pos hc, ih (fun h => ha (List.mem_cons.mpr (Or.inr h)))]

theorem dropWhile_no_slash_append (a b : JStr) (ha : '/' ∉ a) :
    (a ++ '/' :: b).dropWhile (fun c => decide (c ≠ '/')) = '/' :: b := by
  induction a with
  | nil => simp [List.dropWhile]
  | cons c cs ih =>
    have hc : c ≠ '/' := fun h => ha (h ▸ List.mem_cons_self c cs)
    simp only [List.cons_append, List.dropWhile_cons, decide_eq_true_eq]
    rw [if_pos hc, ih (fun h => ha (List.mem_cons.mpr (Or.inr h)))]

theorem takeWhile_no_slash_self (b : JStr) (hb : '/' ∉ b) :
    b.takeWhile (fun c => decide (c ≠ '/')) = b := by
  induction b with
  | nil => rfl
  | cons c cs ih =>
    have hc : c ≠ '/' := fun h => hb (h ▸ List.mem_cons_self c cs)
    simp only [List.takeWhile_cons, decide_eq_true_eq]
    rw [if_pos hc, ih (fun h => hb (List.mem_cons.mpr (Or.inr h)))]

theorem firstSeg_qualName (pt : ProviderType) (k : JStr) :
    firstSeg (qualName pt k) = ptName pt :=
  takeWhile_no_slash_append _ _ (ptName_no_slash pt)

theorem secondSeg_qualName (pt : ProviderType) (k : JStr) (hk : '/' ∉ k) :
    secondSeg (qualName pt k) = k := by
  unfold secondSeg qualName
  rw [dropWhile_no_slash_append _ _ (ptName_no_slash pt)]
  simp only [List.drop_succ_cons, List.drop_zero]
  exact takeWhile_no_slash_self k hk

theorem slash_mem_qualName (pt : ProviderType) (k : JStr) : '/' ∈ qualName pt k := by
  unfold qualName
  exact List.mem_append.mpr (Or.inr (List.mem_cons_self _ _))

theorem buildProviderMap_keys_aux (cfg : MultiProviderConfig) (env : Env)
    (l : List ProviderType) (acc : List (ProviderType × Catalog)) (x : ProviderType) :
    (x ∈ alKeys (l.foldl (fun m pt =>
        match createProvider cfg env pt with
        | some cat => mapSet m pt cat
        | none => m) acc)) ↔
      x ∈ alKeys acc ∨ (x ∈ l ∧ env x ≠ []) := by
  induction l generalizing acc with
  | nil => simp
  | cons pt rest ih =>
    simp only [List.foldl_cons]
    by_cases h : env pt = []
    · have hstep : (match createProvider cfg env pt with
          | some cat => mapSet acc pt cat
          | none => acc) = acc := by
        unfold createProvider
        rw [if_pos h]
      rw [hstep, ih]
      have hx : x = pt → ¬env x ≠ [] := by
        intro he
        rw [he, h]
        simp
      simp only [List.mem_cons]
      constructor
      · rintro (hm | ⟨hl, he⟩)
        · exact Or.inl hm
        · exact Or.inr ⟨Or.inr hl, he⟩
      · rintro (hm | ⟨hl | hl, he⟩)
        · exact Or.inl hm
        · exact absurd he (hx hl)
        · exact Or.inr ⟨hl, he⟩
    · have hstep : (match createProvider cfg env pt with
          | some cat => mapSet acc pt cat
          | none => acc) =
          mapSet acc pt (buildProviderCatalog pt (cfg.allowedModelsFor pt)) := by
        unfold createProvider
        rw [if_neg h]
      rw [hstep, ih]
      rw [mem_alKeys_mapSet]
      have hx : x = pt → env x ≠ [] := fun he => he ▸ h
      simp only [List.mem_cons]
      constructor
      · rintro ((hm | he) | ⟨hl, hee⟩)
        · exact Or.inl hm
        · exact Or.inr ⟨Or.inl he, hx he⟩
        · exact Or.inr ⟨Or.inr hl, hee⟩
      · rintro (hm | ⟨hl | hl, hee⟩)
        · exact Or.inl (Or.inl hm)
        · exact Or.inl (Or.inr hl)
        · exact Or.inr ⟨hl, hee⟩

theorem mem_buildProviderMap_keys (cfg : MultiProviderConfig) (env : Env)
    (x : ProviderType) :
    x ∈ alKeys (buildProviderMap cfg env) ↔ x ∈ cfg.providers ∧ env x ≠ [] := by
  unfold buildProviderMap
  rw [buildProviderMap_keys_aux]
  simp [alKeys]

theorem foldlProv_head_keep (cfg : MultiProviderConfig) (env : Env)
    (l : List ProviderType) (acc : List (ProviderType × Catalog)) (hacc : acc ≠ []) :
    (l.foldl (fun m pt =>
        match createProvider cfg env pt with
        | some cat => mapSet m pt cat
        | none => m) acc).head?.map Prod.fst = acc.head?.map Prod.fst := by
  induction l generalizing acc with
  | nil => rfl
  | cons pt rest ih =>
    simp only [List.foldl_cons]
    cases hc : createProvider cfg env pt with
    | none =>
      rw [ih acc hacc]
    | some cat =>
      rw [ih (mapSet acc pt cat) (mapSet_ne_nil acc pt cat)]
      exact mapSet_fst_head acc pt cat hacc

theorem buildProviderMap_head_aux (cfg : MultiProviderConfig) (env : Env)
    (l : List ProviderType) :
    (l.foldl (fun m pt =>
        match createProvider cfg env pt with
        | some cat => mapSet m pt cat
        | none => m) []).head?.map Prod.fst =
      l.find? (fun pt => decide (env pt ≠ [])) := by
  induction l with
  | nil => rfl
  | cons pt rest ih =>
    simp only [List.foldl_cons]
    by_cases h : env pt = []
    · have hstep : (match createProvider cfg env pt with
          | some cat => mapSet ([] : List (ProviderType × Catalog)) pt cat
          | none => ([] : List (ProviderType × Catalog))) = [] := by
        unfold createProvider
        rw [if_pos h]
      rw [hstep, ih, List.find?_cons_of_neg _ (by simpa using h)]
    · have hstep : (match createProvider cfg env pt with
          | some cat => mapSet ([] : List (ProviderType × Catalog)) pt cat
          | none => ([] : List (ProviderType × Catalog))) =
          [(pt, buildProviderCatalog pt (cfg.allowedModelsFor pt))] := by
        unfold createProvider
        rw [if_neg h]
        rfl
      rw [hstep, foldlProv_head_keep cfg env rest _ (by simp),
        List.find?_cons_of_pos _ (by simpa using h)]
      rfl

theorem buildProviderMap_head (cfg : MultiProviderConfig) (env : Env) :
    (buildProviderMap cfg env).head?.map Prod.fst =
      cfg.providers.find? (fun pt => decide (env pt ≠ [])) :=
  buildProviderMap_head_aux cfg env cfg.providers

theorem buildProviderMap_eq_nil_iff (cfg : MultiProviderConfig) (env : Env) :
    buildProviderMap cfg env = [] ↔ ∀ pt ∈ cfg.providers, env pt = [] := by
  constructor
  · intro h pt hpt
    by_contra he
    have := (mem_buildProviderMap_keys cfg env pt).mpr ⟨hpt, he⟩
    rw [h] at this
    simp [alKeys] at this
  · intro h
    cases hm : buildProviderMap cfg env with
    | nil => rfl
    | cons e rest =>
      have hh := buildProviderMap_head cfg env
      rw [hm] at hh
      simp only [List.head?_cons, Option.map_some'] at hh
      have := List.find?_some hh.symm
      have hmem := List.mem_of_find?_eq_some hh.symm
      simp only [decide_eq_true_eq] at this
      exact absurd (h e.1 hmem) this

theorem initializeProviders_dissect (cfg : MultiProviderConfig) (env : Env)
    (reg : Registry) (h : initializeProviders cfg env = some reg) :
    reg.providers = buildProviderMap cfg env ∧
    ∃ k0 c0 rest, buildProviderMap cfg env = (k0, c0) :: rest ∧
      ∃ d, cfg.defaultProvider.orElse (fun _ => cfg.providers.head?) = some d ∧
        reg.defaultProvider = if alHas ((k0, c0) :: rest) d then d else k0 := by
  unfold initializeProviders at h
  cases hm : buildProviderMap cfg env with
  | nil => rw [hm] at h; cases h
  | cons e rest =>
    obtain ⟨k0, c0⟩ := e
    rw [hm] at h
    cases hd : cfg.defaultProvider.orElse (fun _ => cfg.providers.head?) with
    | none =>
      rw [hd] at h
      cases h
    | some d =>
      rw [hd] at h
      simp only [Option.some.injEq] at h
      subst h
      exact ⟨rfl, k0, c0, rest, rfl, d, rfl, rfl⟩

/-! ### Concrete fixtures used by witnesses and counterexamples -/

/-- Configuration enabling three providers with `openai` requested as default. -/
def cfgFix : MultiProviderConfig :=
  ⟨[.openai, .stability, .replicate], some .openai, fun _ => none⟩

/-- Environment carrying credentials only for `stability` and `replicate`. -/
def envFix : Env := fun pt => if pt = .stability ∨ pt = .replicate then str "k" else []

/-- The registry `cfgFix`/`envFix` initialization produces. -/
def regFix : Registry :=
  ⟨[(.stability, STABILITY_MODELS), (.replicate, REPLICATE_MODELS)], .stability⟩

theorem initializeProviders_fix : initializeProviders cfgFix envFix = some regFix := rfl

/-! ### Claim theorems -/

/-- C2: registry initialization attempts every configured provider and skips
(rather than aborts on) each one whose construction fails for a missing
credential — a registry entry exists for exactly the configured providers
with a credential, and one success suffices for initialization to succeed —
while zero successes make initialization fail with a fatal configuration
error (`none`) instead of producing an empty registry. -/
theorem initializeProviders_spec (cfg : MultiProviderConfig) (env : Env) :
    ((∀ pt ∈ cfg.providers, env pt = []) → initializeProviders cfg env = none) ∧
    ((∃ pt ∈ cfg.providers, env pt ≠ []) →
      (initializeProviders cfg env).isSome = true) ∧
    (∀ reg, initializeProviders cfg env = some reg →
      ∀ pt, alHas reg.providers pt = true ↔ pt ∈ cfg.providers ∧ env pt ≠ []) := by
  refine ⟨?_, ?_, ?_⟩
  · intro h
    unfold initializeProviders
    rw [(buildProviderMap_eq_nil_iff cfg env).mpr h]
  · rintro ⟨pt, hpt, he⟩
    unfold initializeProviders
    cases hm : buildProviderMap cfg env with
    | nil =>
      exact absurd ((buildProviderMap_eq_nil_iff cfg env).mp hm pt hpt) he
    | cons e rest =>
      obtain ⟨k0, c0⟩ := e
      cases hd : cfg.defaultProvider.orElse (fun _ => cfg.providers.head?) with
      | none =>
        exfalso
        cases hcd : cfg.defaultProvider with
        | some d => rw [hcd] at hd; cases hd
        | none =>
          rw [hcd] at hd
          cases hp : cfg.providers with
          | nil => rw [hp] at hpt; cases hpt
          | cons q qs => rw [hp] at hd; cases hd
      | some d => simp
  · intro reg hreg pt
    obtain ⟨hprov, _⟩ := initializeProviders_dissect cfg env reg hreg
    rw [alHas_iff_mem_keys, hprov]
    exact mem_buildProviderMap_keys cfg env pt

/-- Witness for C2 at a concrete configuration: one of three configured
providers lacking a credential does not abort initialization, and the live
registry holds exactly the credentialed providers. -/
theorem initializeProviders_spec_witness :
    (initializeProviders cfgFix envFix).isSome = true ∧
    (alHas regFix.providers ProviderType.stability = true ↔
      ProviderType.stability ∈ cfgFix.providers ∧ envFix ProviderType.stability ≠ []) ∧
    (alHas regFix.providers ProviderType.openai = true ↔
      ProviderType.openai ∈ cfgFix.providers ∧ envFix ProviderType.openai ≠ []) :=
  ⟨(initializeProviders_spec cfgFix envFix).2.1 ⟨.stability, by decide, by decide⟩,
   (initializeProviders_spec cfgFix envFix).2.2 regFix initializeProviders_fix .stability,
   (initializeProviders_spec cfgFix envFix).2.2 regFix initializeProviders_fix .openai⟩

/-- C8: after a successful initialization the default provider identity has
a live client (`getDefaultProvider` cannot fail), the default is the
explicitly requested provider whenever that one initialized, and otherwise
it is the first configured provider, in enablement order, that
initialized. -/
theorem default_provider_spec (cfg : MultiProviderConfig) (env : Env) (reg : Registry)
    (h : initializeProviders cfg env = some reg) :
    (getDefaultProvider reg).isSome = true ∧
    (∀ d, cfg.defaultProvider = some d → d ∈ cfg.providers → env d ≠ [] →
      reg.defaultProvider = d) ∧
    (∀ d, cfg.defaultProvider.orElse (fun _ => cfg.providers.head?) = some d →
      ¬(d ∈ cfg.providers ∧ env d ≠ []) →
      cfg.providers.find? (fun pt => decide (env pt ≠ [])) = some reg.defaultProvider) := by
  obtain ⟨hprov, k0, c0, rest, hm, d0, hd0, hdef⟩ := initializeProviders_dissect cfg env reg h
  refine ⟨?_, ?_, ?_⟩
  · unfold getDefaultProvider
    rw [hprov, hm, hdef]
    by_cases hh : alHas ((k0, c0) :: rest) d0 = true
    · rw [if_pos hh]
      exact hh
    · rw [if_neg hh]
      rw [alGet_cons, if_pos rfl]
      rfl
  · intro d hd hdp hde
    rw [hd] at hd0
    have hdd : d0 = d := by
      cases hd0
      rfl
    subst hdd
    have hhas : alHas ((k0, c0) :: rest) d0 = true := by
      rw [alHas_iff_mem_keys, ← hm]
      exact (mem_buildProviderMap_keys cfg env d0).mpr ⟨hdp, hde⟩
    rw [hdef, if_pos hhas]
  · intro d hd hfail
    have hdd : d0 = d := by
      rw [hd0] at hd
      cases hd
      rfl
    subst hdd
    have hhas : ¬alHas ((k0, c0) :: rest) d0 = true := by
      rw [alHas_iff_mem_keys, ← hm]
      intro hmem
      exact hfail ((mem_buildProviderMap_keys cfg env d0).mp hmem)
    have hfind := buildProviderMap_head cfg env
    rw [hm] at hfind
    simp only [List.head?_cons, Option.map_some'] at hfind
    rw [hdef, if_neg hhas]
    exact hfind.symm

/-- Witness for C8: with `openai` requested as default but lacking a
credential, the finalized default is `stability` (first in enablement order
to initialize) and its client lookup succeeds. -/
theorem default_provider_spec_witness :
    (getDefaultProvider regFix).isSome = true ∧
    cfgFix.providers.find? (fun pt => decide (envFix pt ≠ [])) =
      some regFix.defaultProvider :=
  ⟨(default_provider_spec cfgFix envFix regFix initializeProviders_fix).1,
   (default_provider_spec cfgFix envFix regFix initializeProviders_fix).2.2
     .openai (by decide) (by decide)⟩

instance (reg : Registry) : Decidable (RegistryWF reg) := by
  unfold RegistryWF
  infer_instance

theorem resolveQualified_hit (reg : Registry) (pt : ProviderType) (cat : Catalog)
    (hnd : (alKeys reg.providers).Nodup) (hmem : (pt, cat) ∈ reg.providers)
    (hcnd : (alKeys cat).Nodup) (hvals : ∀ m ∈ cat, m.2 ≠ [])
    (modelY : JStr) (hy : '/' ∉ modelY)
    (hky : modelY ∈ alKeys cat ∨ modelY ∈ alVals cat) :
    resolveQualified reg (qualName pt modelY) =
      some (pt, (alGet cat modelY).getD modelY) := by
  unfold resolveQualified
  rw [if_pos (slash_mem_qualName pt modelY), firstSeg_qualName,
    find?_ptName_of_nodup reg.providers pt cat hnd hmem]
  dsimp only
  rw [secondSeg_qualName pt modelY hy]
  by_cases hk : modelY ∈ alKeys cat
  · obtain ⟨⟨k', v⟩, hkv, hfst⟩ := List.mem_map.mp hk
    have hkv' : (modelY, v) ∈ cat := by
      cases hfst
      exact hkv
    have hg : alGet cat modelY = some v := alGet_of_nodup_mem cat modelY v hcnd hkv'
    have hv : v ≠ [] := hvals (modelY, v) hkv'
    have ht : truthy (some v) = true := by
      cases v with
      | nil => exact absurd rfl hv
      | cons c cs => rfl
    rw [hg, ht]
    simp [jsOrS, hv]
  · have hvv : modelY ∈ alVals cat := hky.resolve_left hk
    have hg : alGet cat modelY = none := alGet_eq_none_of_not_mem cat modelY hk
    rw [hg]
    simp [truthy, jsOrS, hvv]

theorem getProviderFromModel_qualified (reg : Registry) (pt : ProviderType)
    (cat : Catalog) (hnd : (alKeys reg.providers).Nodup)
    (hmem : (pt, cat) ∈ reg.providers) (hcnd : (alKeys cat).Nodup)
    (hvals : ∀ m ∈ cat, m.2 ≠ []) (modelY : JStr) (hy : '/' ∉ modelY)
    (hky : modelY ∈ alKeys cat ∨ modelY ∈ alVals cat) :
    getProviderFromModel reg (qualName pt modelY) =
      some (pt, (alGet cat modelY).getD modelY) := by
  unfold getProviderFromModel
  rw [resolveQualified_hit reg pt cat hnd hmem hcnd hvals modelY hy hky]

/-- The backend model id the spec associates to a catalog name: the catalog
value when the name is a logical key, the name itself when it is already a
backend value. -/
def backendIdFor (cat : Catalog) (m : JStr) : JStr := (alGet cat m).getD m

/-- C1 (amended): on a well-formed registry, `providerX/modelY` with a live
`providerX` and `modelY` a catalog key or value of that provider resolves
to that provider and the backend id for `modelY` — provided `modelY` itself
contains no `'/'` (a `modelY` containing `'/'`, as every HuggingFace
backend value does, is mangled by the two-segment split and falls through
to the default provider with the raw string); and a model string matching
no prefixed entry, no catalog key and no catalog value of any live
provider resolves to the default provider with the raw string unchanged. -/
theorem resolveModel_spec (reg : Registry) (hwf : RegistryWF reg) :
    (∀ pt cat modelY, (pt, cat) ∈ reg.providers → '/' ∉ modelY →
      (modelY ∈ alKeys cat ∨ modelY ∈ alVals cat) →
      getProviderFromModel reg (qualName pt modelY) =
        some (pt, backendIdFor cat modelY)) ∧
    (∀ modelId,
      (∀ e ∈ reg.providers, modelId ∉ alKeys e.2 ∧ modelId ∉ alVals e.2) →
      (∀ e ∈ reg.providers, ptName e.1 = firstSeg modelId →
        secondSeg modelId ∉ alKeys e.2 ∧ secondSeg modelId ∉ alVals e.2) →
      getProviderFromModel reg modelId = some (reg.defaultProvider, modelId)) := by
  obtain ⟨hnd, hdef, hcats⟩ := hwf
  constructor
  · intro pt cat modelY hmem hy hky
    obtain ⟨hcnd, hvals⟩ := hcats (pt, cat) hmem
    exact getProviderFromModel_qualified reg pt cat hnd hmem hcnd hvals modelY hy hky
  · intro modelId h1 h2
    have hq : resolveQualified reg modelId = none := by
      unfold resolveQualified
      by_cases hs : '/' ∈ modelId
      · rw [if_pos hs]
        cases hf : reg.providers.find? (fun e => decide (ptName e.1 = firstSeg modelId)) with
        | none => rfl
        | some e =>
          have hpe := List.find?_some hf
          have hme := List.mem_of_find?_eq_some hf
          simp only [decide_eq_true_eq] at hpe
          obtain ⟨hk, hv⟩ := h2 e hme hpe
          have hg : alGet e.2 (secondSeg modelId) = none :=
            alGet_eq_none_of_not_mem _ _ hk
          dsimp only
          rw [hg]
          simp [truthy, hv]
      · rw [if_neg hs]
    unfold getProviderFromModel
    rw [hq]
    have hf2 : reg.providers.find? (fun e =>
        decide (modelId ∈ alVals e.2) || decide (modelId ∈ alKeys e.2)) = none := by
      rw [List.find?_eq_none]
      intro e he
      obtain ⟨hk, hv⟩ := h1 e he
      simp [hk, hv]
    rw [hf2]
    unfold getDefaultProvider
    have hsome : (alGet reg.providers reg.defaultProvider).isSome = true := hdef
    cases hg : alGet reg.providers reg.defaultProvider with
    | none => rw [hg] at hsome; cases hsome
    | some c => rfl

/-- Witness for C1: a prefixed replicate key resolves to the replicate
provider and its backend version string, and a string matching nothing
resolves to the default provider unchanged. -/
theorem resolveModel_spec_witness :
    getProviderFromModel regFix (qualName .replicate (str "FLUX_SCHNELL")) =
      some (.replicate, backendIdFor REPLICATE_MODELS (str "FLUX_SCHNELL")) ∧
    getProviderFromModel regFix (str "no-such-model") =
      some (regFix.defaultProvider, str "no-such-model") :=
  ⟨(resolveModel_spec regFix (by decide)).1 .replicate REPLICATE_MODELS
      (str "FLUX_SCHNELL") (by decide) (by decide) (by decide),
   (resolveModel_spec regFix (by decide)).2 (str "no-such-model")
      (by decide) (by decide)⟩

/-- Single-provider HuggingFace configuration with the full default catalog. -/
def cfgHFfull : MultiProviderConfig := ⟨[.huggingface], none, fun _ => none⟩

/-- Environment with a HuggingFace credential only. -/
def envHF : Env := fun pt => if pt = .huggingface then str "k" else []

/-- The registry `cfgHFfull`/`envHF` produces. -/
def regHFfull : Registry := ⟨[(.huggingface, HUGGINGFACE_MODELS)], .huggingface⟩

/-- Counterexample to C1 as stated: in a live registry whose only provider
is HuggingFace, `modelY = "stabilityai/stable-diffusion-xl-base-1.0"` is a
catalog value of that provider, yet
`getProviderFromModel "huggingface/stabilityai/stable-diffusion-xl-base-1.0"`
returns the raw input string as the model id instead of the backend id for
`modelY`: the two-segment split looks up only `"stabilityai"`. -/
theorem resolveModel_cex :
    initializeProviders cfgHFfull envHF = some regHFfull ∧
    RegistryWF regHFfull ∧
    str "stabilityai/stable-diffusion-xl-base-1.0" ∈ alVals HUGGINGFACE_MODELS ∧
    (ProviderType.huggingface, HUGGINGFACE_MODELS) ∈ regHFfull.providers ∧
    getProviderFromModel regHFfull
        (qualName .huggingface (str "stabilityai/stable-diffusion-xl-base-1.0")) =
      some (.huggingface,
        qualName .huggingface (str "stabilityai/stable-diffusion-xl-base-1.0")) ∧
    qualName .huggingface (str "stabilityai/stable-diffusion-xl-base-1.0") ≠
      backendIdFor HUGGINGFACE_MODELS (str "stabilityai/stable-diffusion-xl-base-1.0") :=
  ⟨rfl, by decide, by decide, by decide, by decide, by decide⟩

/-- C9 (amended): every prefixed model name returned by the registry's
model enumeration resolves, via `getProviderFromModel`, back to exactly the
(provider, backend-model) pair it was enumerated from — provided the
logical key contains no `'/'` (keys with slashes, which only arise from
verbatim HuggingFace/Replicate allow-list entries, are mangled by the
two-segment split and fall through to the default provider). -/
theorem model_enumeration_resolves (reg : Registry) (hwf : RegistryWF reg)
    (pt : ProviderType) (cat : Catalog) (k v : JStr)
    (hmem : (pt, cat) ∈ reg.providers) (hkv : (k, v) ∈ cat) (hk : '/' ∉ k) :
    (qualName pt k, v) ∈ flatModels reg ∧
    getProviderFromModel reg (qualName pt k) = some (pt, v) := by
  obtain ⟨hnd, hdef, hcats⟩ := hwf
  obtain ⟨hcnd, hvals⟩ := hcats (pt, cat) hmem
  constructor
  · unfold flatModels
    exact List.mem_flatMap.mpr
      ⟨(pt, cat), hmem, List.mem_map.mpr ⟨(k, v), hkv, rfl⟩⟩
  · have hg : alGet cat k = some v := alGet_of_nodup_mem cat k v hcnd hkv
    have hres := getProviderFromModel_qualified reg pt cat hnd hmem hcnd hvals k hk
      (Or.inl (List.mem_map.mpr ⟨(k, v), hkv, rfl⟩))
    rw [hg] at hres
    exact hres

/-- Witness for C9: an enumerated prefixed stability model resolves back to
exactly its enumerated pair. -/
theorem model_enumeration_resolves_witness :
    (qualName .stability (str "STABLE_DIFFUSION_V2_1"),
        str "stable-diffusion-v2-1") ∈ flatModels regFix ∧
    getProviderFromModel regFix (qualName .stability (str "STABLE_DIFFUSION_V2_1")) =
      some (.stability, str "stable-diffusion-v2-1") :=
  model_enumeration_resolves regFix (by decide) .stability STABILITY_MODELS
    (str "STABLE_DIFFUSION_V2_1") (str "stable-diffusion-v2-1")
    (by decide) (by decide) (by decide)

/-- Single-provider HuggingFace configuration whose allow-list entry
`"a/b"` matches nothing and is therefore exposed verbatim as a catalog
key containing a slash. -/
def cfgHFab : MultiProviderConfig := ⟨[.huggingface], none, fun _ => some [str "a/b"]⟩

/-- The registry `cfgHFab`/`envHF` produces. -/
def regHFab : Registry := ⟨[(.huggingface, [(str "a/b", str "a/b")])], .huggingface⟩

/-- Counterexample to C9 as stated: the enumeration of a live registry
contains `"huggingface/a/b" ↦ "a/b"`, but resolving `"huggingface/a/b"`
returns the default provider with the raw string `"huggingface/a/b"` as
model id — not the enumerated backend id `"a/b"` — because the
two-segment split looks up only `"a"`. -/
theorem model_enumeration_resolves_cex :
    initializeProviders cfgHFab envHF = some regHFab ∧
    (str "huggingface/a/b", str "a/b") ∈ flatModels regHFab ∧
    getProviderFromModel regHFab (str "huggingface/a/b") =
      some (.huggingface, str "huggingface/a/b") ∧
    (str "huggingface/a/b" : JStr) ≠ str "a/b" :=
  ⟨rfl, by decide, by decide, by decide⟩

theorem foldl_filterExact_skip (defaultCat : Catalog) (l : List JStr) (acc : Catalog)
    (h : ∀ m ∈ l, ∀ e ∈ defaultCat, e.2 ≠ m) :
    l.foldl (fun acc m =>
      match defaultCat.find? (fun e => decide (e.2 = m)) with
      | some e => mapSet acc e.1 e.2
      | none => acc) acc = acc := by
  induction l generalizing acc with
  | nil => rfl
  | cons m rest ih =>
    simp only [List.foldl_cons]
    have hfind : defaultCat.find? (fun e => decide (e.2 = m)) = none := by
      rw [List.find?_eq_none]
      intro e he
      simpa using h m (List.mem_cons_self m rest) e he
    rw [hfind]
    exact ih acc (fun m' hm' e he => h m' (List.mem_cons.mpr (Or.inr hm')) e he)

theorem foldl_selfInsert_alGet (l : List JStr) (acc : Catalog) (k : JStr) :
    alGet (l.foldl (fun acc m => mapSet acc m m) acc) k =
      if k ∈ l then some k else alGet acc k := by
  induction l generalizing acc with
  | nil => simp
  | cons m rest ih =>
    simp only [List.foldl_cons]
    rw [ih]
    by_cases hr : k ∈ rest
    · simp [hr]
    · by_cases hm : k = m
      · subst hm
        simp [hr, alGet_mapSet_self]
      · simp only [if_neg hr, List.mem_cons]
        rw [alGet_mapSet_ne acc m m k hm]
        have hni : ¬(k = m ∨ k ∈ rest) := by
          rintro (h | h)
          · exact hm h
          · exact hr h
        rw [if_neg hni]

/-- The Replicate allow-list matching rule
(`key.toLowerCase().includes(modelName.toLowerCase()) || modelName === key`). -/
def repMatches (m : JStr) (e : JStr × JStr) : Prop :=
  substrB (toLowerStr m) (toLowerStr e.1) = true ∨ m = e.1

/-- The HuggingFace allow-list matching rule
(`value === modelName || value.includes(modelName)`). -/
def hfMatches (m : JStr) (e : JStr × JStr) : Prop :=
  e.2 = m ∨ substrB m e.2 = true

instance (m : JStr) (e : JStr × JStr) : Decidable (repMatches m e) := by
  unfold repMatches
  infer_instance

instance (m : JStr) (e : JStr × JStr) : Decidable (hfMatches m e) := by
  unfold hfMatches
  infer_instance

/-- C7 (amended): construction with a credential never fails whatever the
allow-list; for the OpenAI and Stability clients an allow-list with zero
catalog matches falls back to exposing the full default catalog; the
Replicate and HuggingFace clients instead expose every unmatched allow-list
entry verbatim (key and value both the entry), so their exposed catalog is
not the default catalog. -/
theorem allowlist_fallback_spec (allow : List JStr) (hne : allow ≠ []) :
    (∀ (cfg : MultiProviderConfig) (env : Env) (pt : ProviderType), env pt ≠ [] →
      (createProvider cfg env pt).isSome = true) ∧
    ((∀ m ∈ allow, ∀ e ∈ OPENAI_MODELS, e.2 ≠ m) →
      buildProviderCatalog .openai (some allow) = OPENAI_MODELS) ∧
    ((∀ m ∈ allow, ∀ e ∈ STABILITY_MODELS, e.2 ≠ m) →
      buildProviderCatalog .stability (some allow) = STABILITY_MODELS) ∧
    ((∀ m ∈ allow, ∀ e ∈ REPLICATE_MODELS, ¬repMatches m e) →
      ∀ k, alGet (buildProviderCatalog .replicate (some allow)) k =
        if k ∈ allow then some k else none) ∧
    ((∀ m ∈ allow, ∀ e ∈ HUGGINGFACE_MODELS, ¬hfMatches m e) →
      ∀ k, alGet (buildProviderCatalog .huggingface (some allow)) k =
        if k ∈ allow then some k else none) := by
  refine ⟨?_, ?_, ?_, ?_, ?_⟩
  · intro cfg env pt he
    unfold createProvider
    rw [if_neg he]
    rfl
  · intro h
    unfold buildProviderCatalog
    dsimp only
    rw [if_neg hne]
    unfold filterCatalogExact
    rw [foldl_filterExact_skip OPENAI_MODELS allow [] h]
    rfl
  · intro h
    unfold buildProviderCatalog
    dsimp only
    rw [if_neg hne]
    unfold filterCatalogExact
    rw [foldl_filterExact_skip STABILITY_MODELS allow [] h]
    rfl
  · intro h k
    unfold buildProviderCatalog
    dsimp only
    rw [if_neg hne]
    unfold filterCatalogReplicate
    have hfold : allow.foldl (fun acc m =>
        match REPLICATE_MODELS.find? (fun e =>
            substrB (toLowerStr m) (toLowerStr e.1) || decide (m = e.1)) with
        | some e => mapSet acc e.1 e.2
        | none => mapSet acc m m) [] =
        allow.foldl (fun acc m => mapSet acc m m) [] := by
      refine List.foldl_ext _ _ [] (fun acc m hm => ?_)
      have hfind : REPLICATE_MODELS.find? (fun e =>
          substrB (toLowerStr m) (toLowerStr e.1) || decide (m = e.1)) = none := by
        rw [List.find?_eq_none]
        intro e he
        have := h m hm e he
        unfold repMatches at this
        simp only [Bool.or_eq_true, decide_eq_true_eq]
        tauto
      rw [hfind]
    rw [hfold]
    obtain ⟨a, rest, ha⟩ : ∃ a rest, allow = a :: rest := by
      cases allow with
      | nil => exact absurd rfl hne
      | cons a rest => exact ⟨a, rest, rfl⟩
    have hcne : (allow.foldl (fun acc m => mapSet acc m m) []) ≠ [] := by
      intro hc
      have := foldl_selfInsert_alGet allow [] a
      rw [hc] at this
      rw [alGet_nil, ha] at this
      simp at this
    rw [if_neg hcne]
    rw [foldl_selfInsert_alGet allow [] k, alGet_nil]
  · intro h k
    unfold buildProviderCatalog
    dsimp only
    rw [if_neg hne]
    unfold filterCatalogHuggingface
    have hfold : allow.foldl (fun acc m =>
        match HUGGINGFACE_MODELS.find? (fun e =>
            decide (e.2 = m) || substrB m e.2) with
        | some e => mapSet acc e.1 e.2
        | none => mapSet acc m m) [] =
        allow.foldl (fun acc m => mapSet acc m m) [] := by
      refine List.foldl_ext _ _ [] (fun acc m hm => ?_)
      have hfind : HUGGINGFACE_MODELS.find? (fun e =>
          decide (e.2 = m) || substrB m e.2) = none := by
        rw [List.find?_eq_none]
        intro e he
        have := h m hm e he
        unfold hfMatches at this
        simp only [Bool.or_eq_true, decide_eq_true_eq]
        tauto
      rw [hfind]
    rw [hfold]
    obtain ⟨a, rest, ha⟩ : ∃ a rest, allow = a :: rest := by
      cases allow with
      | nil => exact absurd rfl hne
      | cons a rest => exact ⟨a, rest, rfl⟩
    have hcne : (allow.foldl (fun acc m => mapSet acc m m) []) ≠ [] := by
      intro hc
      have := foldl_selfInsert_alGet allow [] a
      rw [hc] at this
      rw [alGet_nil, ha] at this
      simp at this
    rw [if_neg hcne]
    rw [foldl_selfInsert_alGet allow [] k, alGet_nil]

/-- Witness for C7: with the allow-list `["qqq"]`, which matches nothing
anywhere, the OpenAI client falls back to its full catalog while the
Replicate client exposes the entry verbatim. -/
theorem allowlist_fallback_spec_witness :
    buildProviderCatalog .openai (some [str "qqq"]) = OPENAI_MODELS ∧
    alGet (buildProviderCatalog .replicate (some [str "qqq"])) (str "qqq") =
      some (str "qqq") :=
  ⟨(allowlist_fallback_spec [str "qqq"] (by decide)).2.1 (by decide),
   by
    rw [(allowlist_fallback_spec [str "qqq"] (by decide)).2.2.2.1 (by decide) (str "qqq")]
    decide⟩

/-- Single-provider Replicate configuration with an allow-list matching
nothing in the default catalog. -/
def cfgQ : MultiProviderConfig := ⟨[.replicate], none, fun _ => some [str "qqq"]⟩

/-- Environment with only a Replicate credential. -/
def envQ : Env := fun pt => if pt = .replicate then str "k" else []

/-- Counterexample to C7 as stated: Replicate client construction with the
zero-match allow-list `["qqq"]` succeeds but exposes the catalog
`[("qqq", "qqq")]`, not the full default catalog. -/
theorem allowlist_fallback_cex :
    ([str "qqq"] : List JStr) ≠ [] ∧
    (∀ e ∈ REPLICATE_MODELS, ¬repMatches (str "qqq") e) ∧
    createProvider cfgQ envQ .replicate = some [(str "qqq", str "qqq")] ∧
    buildProviderCatalog .replicate (some [str "qqq"]) ≠ REPLICATE_MODELS :=
  ⟨by decide, by decide, rfl, by decide⟩

/-- C10: in both dispatch entry points, an explicit provider argument makes
the model string bypass registry resolution entirely — the resolved
provider's generate/edit call receives `model || defaultModel` verbatim,
prefix and all; registry resolution happens exactly when no provider is
given and the model string is truthy; and the schema's default model value
is itself a provider-prefixed key. -/
theorem selectTarget_spec (reg : Registry) (dm : JStr)
    (hd : (getDefaultProvider reg).isSome = true) :
    (∀ p model, alHas reg.providers p = true → model ≠ [] →
      selectTarget reg dm (some p) (some model) = some (p, model)) ∧
    (∀ model, model ≠ [] →
      selectTarget reg dm none (some model) = getProviderFromModel reg model) ∧
    (∀ pt k v cat rest, reg.providers = (pt, (k, v) :: cat) :: rest →
      computeDefaultModel reg = qualName pt k) := by
  refine ⟨?_, ?_, ?_⟩
  · intro p model hp hm
    unfold selectTarget
    cases hg : getDefaultProvider reg with
    | none => rw [hg] at hd; cases hd
    | some c =>
      dsimp only
      rw [if_pos hp]
      have : jsOrS (some model) dm = model := by
        unfold jsOrS
        dsimp only
        rw [if_neg hm]
      rw [this]
  · intro model hm
    unfold selectTarget
    cases hg : getDefaultProvider reg with
    | none => rw [hg] at hd; cases hd
    | some c =>
      dsimp only
      have ht : truthy (some model) = true := by
        cases model with
        | nil => exact absurd rfl hm
        | cons a as => rfl
      rw [ht]
      rfl
  · intro pt k v cat rest hprov
    unfold computeDefaultModel flatModels
    rw [hprov]
    simp only [List.flatMap_cons, List.map_cons, List.cons_append, List.head?_cons,
      Option.map_some']
    unfold jsOrS
    dsimp only
    rw [if_neg]
    intro hq
    have : qualName pt k ≠ [] := by
      unfold qualName
      intro h
      have := List.append_eq_nil.mp h
      cases this.2
    exact this hq

/-- Witness for C10: with an explicit `replicate` provider, a
stability-prefixed model string — and in particular the schema's computed
default model, which is prefixed — is handed to the provider verbatim,
without registry resolution. -/
theorem selectTarget_spec_witness :
    selectTarget regFix (computeDefaultModel regFix) (some .replicate)
        (some (str "stability/STABLE_DIFFUSION_V2_1")) =
      some (.replicate, str "stability/STABLE_DIFFUSION_V2_1") ∧
    computeDefaultModel regFix = qualName .stability (str "STABLE_DIFFUSION_XL") :=
  ⟨(selectTarget_spec regFix (computeDefaultModel regFix) (by decide)).1
      .replicate (str "stability/STABLE_DIFFUSION_V2_1") (by decide) (by decide),
   (selectTarget_spec regFix (computeDefaultModel regFix) (by decide)).2.2
      .stability (str "STABLE_DIFFUSION_XL") (str "stable-diffusion-xl-1024-v1-0")
      (STABILITY_MODELS.drop 1) [(.replicate, REPLICATE_MODELS)] (by decide)⟩

theorem extOf_ne_nil_imp (p : JStr) (h : extOf p ≠ []) : p ≠ [] := by
  intro hp
  subst hp
  exact h rfl

/-- C5 (amended): `persistResult` path resolution is purely syntactic on
extension presence — an outputPath whose basename has an extension is
written to exactly, with its parent directory created when absent; a
NON-EMPTY outputPath without an extension is always treated as a
directory, created when absent, and receives a fresh uuid-named file with
the format's extension; no outputPath writes a uuid-named file with the
format's extension into `/tmp`.  (An empty outputPath string is falsy and
behaves like an absent one — the sole exception to "no extension means
directory".) -/
theorem persistResult_path_spec (imageData outputFormat uuid : JStr)
    (fs : JStr → Bool) (p : JStr) :
    (extOf p ≠ [] →
      saveImageToTempFile imageData outputFormat (some p) uuid fs =
        ⟨p, b64Decode (stripDataUrl imageData),
          if fs (dirOf p) then [] else [dirOf p]⟩) ∧
    (p ≠ [] → extOf p = [] →
      saveImageToTempFile imageData outputFormat (some p) uuid fs =
        ⟨joinPath p (uuid ++ '.' :: outputFormat),
          b64Decode (stripDataUrl imageData),
          if fs p then [] else [p]⟩) ∧
    (saveImageToTempFile imageData outputFormat none uuid fs =
      ⟨joinPath (str "/tmp") (uuid ++ '.' :: outputFormat),
        b64Decode (stripDataUrl imageData), []⟩) := by
  refine ⟨?_, ?_, ?_⟩
  · intro he
    unfold saveImageToTempFile
    dsimp only [Option.getD_some]
    rw [if_pos (extOf_ne_nil_imp p he), if_pos he]
  · intro hp he
    unfold saveImageToTempFile
    dsimp only [Option.getD_some]
    rw [if_pos hp, if_neg (by simp [he])]
  · unfold saveImageToTempFile
    dsimp only [Option.getD_none]
    rw [if_neg (by simp)]

/-- Witness for C5: a path with an extension is written to literally (with
its parent created), an extensionless path becomes a directory holding a
uuid-named file, and an absent path lands in `/tmp`. -/
theorem persistResult_path_spec_witness :
    saveImageToTempFile (str "QUJD") (str "png") (some (str "/tmp/out.png"))
        (str "u1") (fun _ => false) =
      ⟨str "/tmp/out.png", [65, 66, 67], [str "/tmp"]⟩ ∧
    saveImageToTempFile (str "QUJD") (str "png") (some (str "/tmp/outdir"))
        (str "u1") (fun _ => false) =
      ⟨str "/tmp/outdir/u1.png", [65, 66, 67], [str "/tmp/outdir"]⟩ ∧
    saveImageToTempFile (str "QUJD") (str "png") none (str "u1") (fun _ => false) =
      ⟨str "/tmp/u1.png", [65, 66, 67], []⟩ := by
  refine ⟨?_, ?_, ?_⟩
  · rw [(persistResult_path_spec (str "QUJD") (str "png") (str "u1")
      (fun _ => false) (str "/tmp/out.png")).1 (by decide)]
    decide
  · rw [(persistResult_path_spec (str "QUJD") (str "png") (str "u1")
      (fun _ => false) (str "/tmp/outdir")).2.1 (by decide) (by decide)]
    decide
  · rw [(persistResult_path_spec (str "QUJD") (str "png") (str "u1")
      (fun _ => false) (str "/tmp/outdir")).2.2]
    decide

/-- Counterexample to C5 as stated: the empty string is an outputPath with
no extension, yet it is NOT treated as a directory — it is falsy, so the
file goes to `/tmp` under a uuid name and no directory is created, instead
of being written inside the (created) output directory. -/
theorem persistResult_path_cex :
    extOf ([] : JStr) = [] ∧
    saveImageToTempFile (str "QUJD") (str "png") (some []) (str "u1")
        (fun _ => false) =
      ⟨str "/tmp/u1.png", [65, 66, 67], []⟩ ∧
    str "/tmp/u1.png" ≠ joinPath [] (str "u1" ++ '.' :: str "png") ∧
    ([] : List JStr) ≠ [([] : JStr)] :=
  ⟨rfl, by decide, by decide, by decide⟩

/-- C6: for every byte sequence, base64-encoding it, attaching a
`data:image/png;base64,` URL prefix (or not), and running `persistResult`
writes exactly the original bytes: the data-URL prefix is stripped before
decoding. -/
theorem persistResult_roundtrip (bytes : List Nat) (h : ∀ x ∈ bytes, x < 256)
    (outputFormat uuid : JStr) (op : Option JStr) (fs : JStr → Bool) :
    (saveImageToTempFile (str "data:image/png;base64," ++ b64Encode bytes)
        outputFormat op uuid fs).bytes = bytes ∧
    (saveImageToTempFile (b64Encode bytes) outputFormat op uuid fs).bytes = bytes := by
  have hnc : ',' ∉ b64Encode bytes := b64Encode_no_comma bytes
  have hbytes : ∀ data, (saveImageToTempFile data outputFormat op uuid fs).bytes =
      b64Decode (stripDataUrl data) := by
    intro data
    unfold saveImageToTempFile
    by_cases hop : op.getD [] ≠ []
    · rw [if_pos hop]
      by_cases he : extOf (op.getD []) ≠ []
      · rw [if_pos he]
      · rw [if_neg he]
    · rw [if_neg hop]
  constructor
  · rw [hbytes, stripDataUrl_dataUrl _ hnc, b64_roundtrip bytes h]
  · rw [hbytes, stripDataUrl_of_no_comma _ hnc, b64_roundtrip bytes h]

/-- Witness for C6: a concrete byte vector survives the
prefix-encode-persist round trip under both a file path and a directory
path. -/
theorem persistResult_roundtrip_witness :
    (saveImageToTempFile (str "data:image/png;base64," ++ b64Encode [0, 1, 254, 255])
        (str "png") (some (str "/tmp/out.png")) (str "u1") (fun _ => false)).bytes =
      [0, 1, 254, 255] ∧
    (saveImageToTempFile (b64Encode [0, 1, 254, 255]) (str "png") none (str "u1")
        (fun _ => false)).bytes = [0, 1, 254, 255] :=
  ⟨(persistResult_roundtrip [0, 1, 254, 255] (by decide) (str "png") (str "u1")
      (some (str "/tmp/out.png")) (fun _ => false)).1,
   (persistResult_roundtrip [0, 1, 254, 255] (by decide) (str "png") (str "u1")
      none (fun _ => false)).2⟩

/-- C3: every generation request that violates a model-specific constraint
— n > 1 with dall-e-3, a size outside dall-e-2's whitelist, a size outside
dall-e-3's whitelist, or a transparent background with an output format
other than png/webp — makes `generateImages` throw a validation error
naming the violated constraint before the network call (`Except.ok` is the
network call, so an `Except.error` result means zero backend calls).  Each
part assumes the request reaches its check: the prompt is non-empty, the
effective model is allowed, and (for later checks) the earlier constraints
hold. -/
theorem generate_constraint_rejection (cat : Catalog) (req : GenRequest) :
    (req.prompt ≠ [] → effGenModel cat req = str "dall-e-3" →
      effGenModel cat req ∈ alVals cat → 1 < effGenN req →
      openaiGenerate cat req = .error (str "dall-e-3 model only supports n=1")) ∧
    (req.prompt ≠ [] → effGenModel cat req = str "dall-e-2" →
      effGenModel cat req ∈ alVals cat → effGenSize req ≠ [] →
      effGenSize req ∉ [str "256x256", str "512x512", str "1024x1024"] →
      openaiGenerate cat req =
        .error (str "dall-e-2 only supports sizes 256x256, 512x512, or 1024x1024")) ∧
    (req.prompt ≠ [] → effGenModel cat req = str "dall-e-3" →
      effGenModel cat req ∈ alVals cat → effGenN req ≤ 1 →
      effGenSize req ≠ [] →
      effGenSize req ∉ [str "1024x1024", str "1792x1024", str "1024x1792"] →
      openaiGenerate cat req =
        .error (str "dall-e-3 only supports sizes 1024x1024, 1792x1024, or 1024x1792")) ∧
    (req.prompt ≠ [] →
      (effGenModel cat req ≠ [] → effGenModel cat req ∈ alVals cat) →
      (effGenModel cat req = str "dall-e-3" → effGenN req ≤ 1) →
      (effGenModel cat req = str "dall-e-2" → effGenSize req ≠ [] →
        effGenSize req ∈ [str "256x256", str "512x512", str "1024x1024"]) →
      (effGenModel cat req = str "dall-e-3" → effGenSize req ≠ [] →
        effGenSize req ∈ [str "1024x1024", str "1792x1024", str "1024x1792"]) →
      effGenBackground req = str "transparent" → effGenFormat req ≠ [] →
      effGenFormat req ∉ [str "png", str "webp"] →
      openaiGenerate cat req =
        .error (str "When background is transparent, output_format must be png or webp")) := by
  refine ⟨?_, ?_, ?_, ?_⟩
  · intro hp hm hin hn
    unfold openaiGenerate
    rw [if_neg (by simpa using hp)]
    rw [if_neg (by
      rintro ⟨_, hnin⟩
      exact hnin hin)]
    rw [if_pos ⟨hm, by omega, hn⟩]
  · intro hp hm hin hs0 hs
    unfold openaiGenerate
    rw [if_neg (by simpa using hp)]
    rw [if_neg (by
      rintro ⟨_, hnin⟩
      exact hnin hin)]
    rw [if_neg (by
      rintro ⟨h3, _⟩
      rw [hm] at h3
      exact absurd h3 (by decide))]
    rw [if_pos ⟨hm, hs0, hs⟩]
  · intro hp hm hin hn hs0 hs
    unfold openaiGenerate
    rw [if_neg (by simpa using hp)]
    rw [if_neg (by
      rintro ⟨_, hnin⟩
      exact hnin hin)]
    rw [if_neg (by
      rintro ⟨_, _, hn2⟩
      omega)]
    rw [if_neg (by
      rintro ⟨h2, _⟩
      rw [hm] at h2
      exact absurd h2 (by decide))]
    rw [if_pos ⟨hm, hs0, hs⟩]
  · intro hp hallow hn hs2 hs3 hb hf0 hf
    unfold openaiGenerate
    rw [if_neg (by simpa using hp)]
    rw [if_neg (by
      rintro ⟨hne, hnin⟩
      exact hnin (hallow hne))]
    rw [if_neg (by
      rintro ⟨h3, _, hn2⟩
      exact absurd hn2 (by
        have := hn h3
        omega))]
    rw [if_neg (by
      rintro ⟨h2, hsz, hnin⟩
      exact hnin (hs2 h2 hsz))]
    rw [if_neg (by
      rintro ⟨h3, hsz, hnin⟩
      exact hnin (hs3 h3 hsz))]
    rw [if_pos ⟨hb, hf0, hf⟩]

/-- Witness for C3: concrete violating requests for each of the four
constraints are rejected with the exact messages. -/
theorem generate_constraint_rejection_witness :
    openaiGenerate OPENAI_MODELS
        { prompt := str "a cat", model := some (str "dall-e-3"), n := some 2 } =
      .error (str "dall-e-3 model only supports n=1") ∧
    openaiGenerate OPENAI_MODELS
        { prompt := str "a cat", model := some (str "dall-e-2"),
          size := some (str "1792x1024") } =
      .error (str "dall-e-2 only supports sizes 256x256, 512x512, or 1024x1024") ∧
    openaiGenerate OPENAI_MODELS
        { prompt := str "a cat", model := some (str "dall-e-3"),
          size := some (str "512x512") } =
      .error (str "dall-e-3 only supports sizes 1024x1024, 1792x1024, or 1024x1792") ∧
    openaiGenerate OPENAI_MODELS
        { prompt := str "a cat", background := some (str "transparent"),
          output_format := some (str "jpeg") } =
      .error (str "When background is transparent, output_format must be png or webp") :=
  ⟨(generate_constraint_rejection OPENAI_MODELS
      { prompt := str "a cat", model := some (str "dall-e-3"), n := some 2 }).1
      (by decide) (by decide) (by decide) (by decide),
   (generate_constraint_rejection OPENAI_MODELS
      { prompt := str "a cat", model := some (str "dall-e-2"),
        size := some (str "1792x1024") }).2.1
      (by decide) (by decide) (by decide) (by decide) (by decide),
   (generate_constraint_rejection OPENAI_MODELS
      { prompt := str "a cat", model := some (str "dall-e-3"),
        size := some (str "512x512") }).2.2.1
      (by decide) (by decide) (by decide) (by decide) (by decide) (by decide),
   (generate_constraint_rejection OPENAI_MODELS
      { prompt := str "a cat", background := some (str "transparent"),
        output_format := some (str "jpeg") }).2.2.2
      (by decide) (by decide) (by decide) (by decide) (by decide)
      (by decide) (by decide) (by decide)⟩

/-- C4 (amended): an edit request that passes the earlier validations and
references a missing local file fails, before any network call, with an
error naming the exact missing path — for the OpenAI client this covers
every source image (the first missing one, in order) and then the mask;
the Replicate client checks only the first source image and the mask (the
only files it reads) — its errors additionally carry a
`Replicate API error: ` prefix from the surrounding catch — and a missing
non-first source image does NOT make it fail: the backend call proceeds. -/
theorem edit_missing_file_spec (cat : Catalog) (fs : JStr → Bool) (req : EditRequest) :
    ((req.images ≠ []) → (req.prompt ≠ []) →
      (effEditModel req ≠ [] → effEditModel req ∈ alVals cat ∧
        (effEditModel req = str "dall-e-2" ∨ effEditModel req = str "gpt-image-1")) →
      (effEditModel req = str "dall-e-2" → req.images.length = 1 ∧
        (req.size.getD (str "1024x1024") ∈ [str "256x256", str "512x512", str "1024x1024"] ∨
          req.size.getD (str "1024x1024") = [])) →
      (∀ p, firstMissing fs req.images = some p →
        openaiEdit cat fs req = .error (str "Image file not found: " ++ p)) ∧
      (firstMissing fs req.images = none →
        ∀ mk, req.mask = some mk → mk ≠ [] → fs mk = false →
          openaiEdit cat fs req = .error (str "Mask file not found: " ++ mk))) ∧
    ((req.images ≠ []) → (req.prompt ≠ []) → (repModelVersion cat req ≠ []) →
      (fs (req.images.headD []) = false →
        replicateEdit cat fs req =
          .error (str "Replicate API error: Image file not found: " ++
            req.images.headD [])) ∧
      (fs (req.images.headD []) = true →
        ∀ mk, req.mask = some mk → mk ≠ [] → fs mk = false →
          replicateEdit cat fs req =
            .error (str "Replicate API error: Mask file not found: " ++ mk)) ∧
      (fs (req.images.headD []) = true →
        (truthy req.mask = false ∨ fs (req.mask.getD []) = true) →
        exOk (replicateEdit cat fs req) = true)) := by
  constructor
  · intro himg hp hmod hd2
    have hpre : ∀ (r : Except JStr Unit),
        checkImagesExist fs req.images = r →
        openaiEdit cat fs req = (match r with
          | .error e => .error e
          | .ok _ =>
            if truthy req.mask ∧ !fs (req.mask.getD []) then
              .error (str "Mask file not found: " ++ req.mask.getD [])
            else
              .ok ⟨req.images, req.mask, req.prompt, effEditModel req, req.n.getD 1,
                req.size.getD (str "1024x1024"),
                (if req.response_format.getD (str "b64_json") ≠ [] ∧
                    effEditModel req ≠ str "gpt-image-1" then
                  some (req.response_format.getD (str "b64_json"))
                else none), req.quality.getD (str "auto")⟩) := by
      intro r hr
      unfold openaiEdit
      rw [if_neg himg, if_neg hp]
      rw [if_neg (by
        rintro ⟨hne, hnin⟩
        exact hnin (hmod hne).1)]
      rw [if_neg (by
        rintro ⟨hne, h2, h3⟩
        rcases (hmod hne).2 with h | h
        · exact h2 h
        · exact h3 h)]
      rw [if_neg (by
        rintro ⟨h2, hlen⟩
        exact hlen (hd2 h2).1)]
      rw [if_neg (by
        rintro ⟨h2, hsz, hnin⟩
        rcases (hd2 h2).2 with h | h
        · exact hnin h
        · exact hsz h)]
      rw [hr]
    constructor
    · intro p hfm
      rw [hpre (.error (str "Image file not found: " ++ p)) (by
        unfold checkImagesExist
        rw [hfm])]
    · intro hfm mk hmk hmkne hmkfs
      rw [hpre (.ok ()) (by
        unfold checkImagesExist
        rw [hfm])]
      dsimp only
      rw [if_pos ⟨(by
          rw [hmk]
          cases mk with
          | nil => exact absurd rfl hmkne
          | cons c cs => rfl),
        (by rw [hmk, Option.getD_some, hmkfs]; rfl)⟩]
      rw [hmk, Option.getD_some]
  · intro himg hp hmv
    have hpre : replicateEdit cat fs req =
        (match (if !fs (req.images.headD []) then
            .error (str "Image file not found: " ++ req.images.headD [])
          else if truthy req.mask ∧ !fs (req.mask.getD []) then
            .error (str "Mask file not found: " ++ req.mask.getD [])
          else
            (.ok ⟨repModelVersion cat req, req.images.headD [], req.mask,
              req.prompt, req.n.getD 1⟩ : Except JStr RepEditPayload)) with
          | .error e => .error (str "Replicate API error: " ++ e)
          | .ok pl => .ok pl) := by
      unfold replicateEdit
      rw [if_neg himg, if_neg hp, if_neg hmv]
    refine ⟨?_, ?_, ?_⟩
    · intro hfs
      rw [hpre, if_pos (by rw [hfs]; rfl)]
      dsimp only
      rw [← List.append_assoc]
      rfl
    · intro hfs mk hmk hmkne hmkfs
      rw [hpre, if_neg (by rw [hfs]; simp)]
      rw [if_pos ⟨(by
          rw [hmk]
          cases mk with
          | nil => exact absurd rfl hmkne
          | cons c cs => rfl),
        (by rw [hmk, Option.getD_some, hmkfs]; rfl)⟩]
      rw [hmk, Option.getD_some]
      dsimp only
      rw [← List.append_assoc]
      rfl
    · intro hfs hmask
      rw [hpre, if_neg (by rw [hfs]; simp)]
      rw [if_neg (by
        rintro ⟨ht, hnf⟩
        rcases hmask with h | h
        · rw [ht] at h
          cases h
        · rw [h] at hnf
          cases hnf)]
      rfl

/-- Filesystem oracle on which only `/a.png` exists. -/
def fsA : JStr → Bool := fun p => decide (p = str "/a.png")

/-- Edit request referencing one existing and one missing image. -/
def cexEditReq : EditRequest :=
  { images := [str "/a.png", str "/b.png"], prompt := str "edit" }

/-- Witness for C4: a missing source image and a missing mask are rejected
by the OpenAI client with errors naming the exact paths, and the Replicate
client rejects a missing first image with its prefixed error. -/
theorem edit_missing_file_spec_witness :
    openaiEdit OPENAI_MODELS fsA cexEditReq =
      .error (str "Image file not found: /b.png") ∧
    openaiEdit OPENAI_MODELS fsA
        { images := [str "/a.png"], prompt := str "edit", mask := some (str "/m.png") } =
      .error (str "Mask file not found: /m.png") ∧
    replicateEdit REPLICATE_MODELS fsA
        { images := [str "/x.png"], prompt := str "edit" } =
      .error (str "Replicate API error: Image file not found: /x.png") :=
  ⟨((edit_missing_file_spec OPENAI_MODELS fsA cexEditReq).1
      (by decide) (by decide) (by decide) (by decide)).1 (str "/b.png") (by decide),
   ((edit_missing_file_spec OPENAI_MODELS fsA
      { images := [str "/a.png"], prompt := str "edit",
        mask := some (str "/m.png") }).1
      (by decide) (by decide) (by decide) (by decide)).2 (by decide)
      (str "/m.png") rfl (by decide) (by decide),
   ((edit_missing_file_spec REPLICATE_MODELS fsA
      { images := [str "/x.png"], prompt := str "edit" }).2
      (by decide) (by decide) (by decide)).1 (by decide)⟩

/-- Counterexample to C4 as stated: the Replicate client's edit request
references the missing file `/b.png` as its second source image, yet
`editImages` does not fail — it proceeds to the backend call (`Except.ok`)
— because only `images[0]` and the mask are existence-checked. -/
theorem edit_missing_file_cex :
    str "/b.png" ∈ cexEditReq.images ∧
    fsA (str "/b.png") = false ∧
    exOk (replicateEdit REPLICATE_MODELS fsA cexEditReq) = true :=
  ⟨by decide, by decide, by decide⟩
